import Mathlib

/-!
Shallow embedding of the delivery/billing reconciliation engine of the
energypac ERP backend: Work Orders and their items, Bills and their items,
the BillPayment ledger, Purchase Orders and Product stock, together with
the operations bill creation (billing/serializers.py `BillCreateSerializer`),
bill cancellation (billing/views.py `cancel` + billing/models.py
`restore_stock`), payment recording (billing/views.py `mark_paid`),
work-order status recomputation (work_orders/models.py `update_status`)
and purchase-order receipt (purchase_orders/models.py `mark_as_purchased`,
`update_status`).

Monetary amounts and quantities are modelled as exact rationals: the source
stores fixed-precision decimals, and every arithmetic operation used by the
engine (addition, subtraction, multiplication, division by 100, `min`) is
exact on such decimals, so `ℚ` is a faithful carrier.  Auto-generated
document numbers, timestamps, user bookkeeping, free-text fields and the
WO-creation-time stock snapshot fields (`stock_available`/`stock_quantity`)
are omitted: no claimed property mentions them.  Database tables are
association lists from a numeric primary key; `lookup` models
`objects.get(id=k)` and `updateKey` models an ORM `save()` that writes a
row back by primary key.
-/

namespace Erp

abbrev Money := ℚ
abbrev Qty := ℚ

/-- Association-list lookup by key, first match (`objects.get(id=k)`). -/
def lookup {α : Type} : List (Nat × α) → Nat → Option α
  | [], _ => none
  | p :: l, k => if p.1 = k then some p.2 else lookup l k

/-- Write back a row by primary key (an ORM `save()` of a fetched row). -/
def updateKey {α : Type} : List (Nat × α) → Nat → (α → α) → List (Nat × α)
  | [], _, _ => []
  | p :: l, k, f => (if p.1 = k then (p.1, f p.2) else p) :: updateKey l k f

inductive WOStatus
  | ACTIVE | PARTIALLY_DELIVERED | COMPLETED | CANCELLED
deriving DecidableEq

inductive BillStatus
  | DRAFT | GENERATED | PAID | CANCELLED
deriving DecidableEq

inductive PaymentMode
  | CASH | CHEQUE | NEFT | RTGS | IMPS | UPI | OTHER
deriving DecidableEq

/-- `WorkOrderItem` (work_orders/models.py). -/
structure WorkOrderItem where
  work_order : Nat
  product : Option Nat
  ordered_quantity : Qty
  delivered_quantity : Qty
  pending_quantity : Qty
  rate : Money
  amount : Money
deriving DecidableEq

/-- `WorkOrderItem.save`: recomputes `amount` and `pending_quantity`
(work_orders/models.py lines 238-251; the stock snapshot fields it also
refreshes are omitted from the model). -/
def WorkOrderItem.save (it : WorkOrderItem) : WorkOrderItem :=
  { it with
    amount := it.ordered_quantity * it.rate
    pending_quantity := it.ordered_quantity - it.delivered_quantity }

/-- `WorkOrder` (work_orders/models.py), financial and status fields. -/
structure WorkOrder where
  cgst_percentage : ℚ
  sgst_percentage : ℚ
  igst_percentage : ℚ
  advance_amount : Money
  advance_deducted : Money
  advance_remaining : Money
  total_delivered_value : Money
  status : WOStatus
deriving DecidableEq

/-- `WorkOrder.save`: recomputes `advance_remaining` (lines 115-129). -/
def WorkOrder.save (wo : WorkOrder) : WorkOrder :=
  { wo with advance_remaining := wo.advance_amount - wo.advance_deducted }

/-- `WorkOrder.update_status` (lines 131-150): recompute the delivery status
from the work order's items; an empty item list returns without saving. -/
def WorkOrder.update_status (items : List WorkOrderItem) (wo : WorkOrder) : WorkOrder :=
  if items.isEmpty then wo
  else
    let total_pending := (items.map (fun it => it.pending_quantity)).sum
    let st :=
      if total_pending = 0 then WOStatus.COMPLETED
      else if items.any (fun it => decide (0 < it.delivered_quantity)) then
        WOStatus.PARTIALLY_DELIVERED
      else WOStatus.ACTIVE
    WorkOrder.save { wo with status := st }

/-- `BillItem` (billing/models.py). -/
structure BillItem where
  work_order_item : Nat
  product : Option Nat
  ordered_quantity : Qty
  previously_delivered_quantity : Qty
  delivered_quantity : Qty
  pending_quantity : Qty
  rate : Money
  amount : Money
deriving DecidableEq

/-- `BillItem.save` (billing/models.py lines 252-268): snapshot the current
work-order-item fields into a new bill item; only `delivered_quantity` is
caller supplied. -/
def BillItem.snapshot (wo_item : WorkOrderItem) (work_order_item : Nat)
    (delivered_quantity : Qty) : BillItem :=
  let amount := delivered_quantity * wo_item.rate
  let total_delivered := wo_item.delivered_quantity + delivered_quantity
  { work_order_item := work_order_item
    product := wo_item.product
    ordered_quantity := wo_item.ordered_quantity
    previously_delivered_quantity := wo_item.delivered_quantity
    delivered_quantity := delivered_quantity
    pending_quantity := wo_item.ordered_quantity - total_delivered
    rate := wo_item.rate
    amount := amount }

/-- `BillPayment` (billing/models.py lines 274-357). -/
structure BillPayment where
  payment_number : Nat
  amount : Money
  payment_date : Nat
  payment_mode : PaymentMode
  total_paid_after : Money
  balance_after : Money
deriving DecidableEq

/-- `Bill` (billing/models.py), with its items and its payment ledger. -/
structure Bill where
  work_order : Nat
  items : List BillItem
  subtotal : Money
  cgst_percentage : ℚ
  sgst_percentage : ℚ
  igst_percentage : ℚ
  cgst_amount : Money
  sgst_amount : Money
  igst_amount : Money
  total_amount : Money
  advance_deducted : Money
  net_payable : Money
  amount_paid : Money
  balance : Money
  status : BillStatus
  payments : List BillPayment
deriving DecidableEq

/-- A freshly constructed `Bill` row: defaults from the model
(`amount_paid = 0`, `status = GENERATED`, no payments). -/
def Bill.new (work_order : Nat) (items : List BillItem) : Bill :=
  { work_order := work_order
    items := items
    subtotal := 0
    cgst_percentage := 0
    sgst_percentage := 0
    igst_percentage := 0
    cgst_amount := 0
    sgst_amount := 0
    igst_amount := 0
    total_amount := 0
    advance_deducted := 0
    net_payable := 0
    amount_paid := 0
    balance := 0
    status := BillStatus.GENERATED
    payments := [] }

/-- `Bill.calculate_totals` (billing/models.py lines 120-145): subtotal from
item amounts, tax percentages copied from the work order, advance deduction
capped by the work order's remaining advance. -/
def Bill.calculate_totals (wo : WorkOrder) (b : Bill) : Bill :=
  let subtotal := (b.items.map (fun it => it.amount)).sum
  let cgst_amount := subtotal * wo.cgst_percentage / 100
  let sgst_amount := subtotal * wo.sgst_percentage / 100
  let igst_amount := subtotal * wo.igst_percentage / 100
  let total_amount := subtotal + cgst_amount + sgst_amount + igst_amount
  let advance_deducted := min total_amount wo.advance_remaining
  let net_payable := total_amount - advance_deducted
  { b with
    subtotal := subtotal
    cgst_percentage := wo.cgst_percentage
    sgst_percentage := wo.sgst_percentage
    igst_percentage := wo.igst_percentage
    cgst_amount := cgst_amount
    sgst_amount := sgst_amount
    igst_amount := igst_amount
    total_amount := total_amount
    advance_deducted := advance_deducted
    net_payable := net_payable
    balance := net_payable - b.amount_paid }

/-- `Bill.update_work_order_advance` (lines 147-152) followed by the
`WorkOrder.save` it triggers. -/
def Bill.update_work_order_advance (b : Bill) (wo : WorkOrder) : WorkOrder :=
  WorkOrder.save
    { wo with
      advance_deducted := wo.advance_deducted + b.advance_deducted
      total_delivered_value := wo.total_delivered_value + b.total_amount }

/-- Common loop shape of `Bill.deduct_stock` / `Bill.restore_stock`: for each
bill item with a linked product, update that product's stock row with `f` and
the referenced work-order-item row with `g` (the latter ends in a `save`). -/
def billItemsFold (f : BillItem → Qty → Qty) (g : BillItem → WorkOrderItem → WorkOrderItem) :
    List BillItem → List (Nat × Qty) × List (Nat × WorkOrderItem) →
    List (Nat × Qty) × List (Nat × WorkOrderItem)
  | [], acc => acc
  | bi :: rest, acc =>
    billItemsFold f g rest
      (match bi.product with
       | none => acc
       | some pid =>
         (updateKey acc.1 pid (f bi), updateKey acc.2 bi.work_order_item (g bi)))

/-- Item/stock mutation of `Bill.deduct_stock` (billing/models.py lines
154-170): `current_stock -= delivered_quantity`,
`delivered_quantity += delivered_quantity`, each followed by a save.
The closing `work_order.update_status()` is applied by `createBill`. -/
def Bill.deduct_stock (b : Bill)
    (acc : List (Nat × Qty) × List (Nat × WorkOrderItem)) :
    List (Nat × Qty) × List (Nat × WorkOrderItem) :=
  billItemsFold
    (fun bi st => st - bi.delivered_quantity)
    (fun bi it =>
      WorkOrderItem.save
        { it with delivered_quantity := it.delivered_quantity + bi.delivered_quantity })
    b.items acc

/-- Item/stock mutation of `Bill.restore_stock` (billing/models.py lines
172-190): exact inverse of `deduct_stock` on products and work-order items.
The advance reversal and `update_status` are applied by `cancelBill`. -/
def Bill.restore_stock_items (b : Bill)
    (acc : List (Nat × Qty) × List (Nat × WorkOrderItem)) :
    List (Nat × Qty) × List (Nat × WorkOrderItem) :=
  billItemsFold
    (fun bi st => st + bi.delivered_quantity)
    (fun bi it =>
      WorkOrderItem.save
        { it with delivered_quantity := it.delivered_quantity - bi.delivered_quantity })
    b.items acc

/-- The relational state the billing engine acts on. -/
structure ErpState where
  products : List (Nat × Qty)
  work_order_items : List (Nat × WorkOrderItem)
  work_orders : List (Nat × WorkOrder)
  bills : List Bill
deriving DecidableEq

/-- `Product.current_stock` for a referenced product (the foreign key always
resolves in the source; `0` is a dead default). -/
def stockOf (s : ErpState) (pid : Nat) : Qty :=
  (lookup s.products pid).getD 0

/-- The `self.items.all()` queryset of a work order. -/
def itemsOf (items : List (Nat × WorkOrderItem)) (woId : Nat) : List WorkOrderItem :=
  (items.filter (fun p => decide (p.2.work_order = woId))).map (fun p => p.2)

/-- One item of the `items` array of a bill-creation request
(`BillItemInputSerializer`). -/
structure BillItemInput where
  work_order_item : Nat
  delivered_quantity : Qty
deriving DecidableEq

/-- A bill-creation request (`BillCreateSerializer` input). -/
structure BillCreateRequest where
  work_order : Nat
  items : List BillItemInput
deriving DecidableEq

/-- The distinguishable rejection kinds of bill creation
(billing/serializers.py `validate_work_order` / `validate_items`). -/
inductive BillCreateError
  | work_order_not_found
  | work_order_completed
  | no_items
  | item_not_found (itemId : Nat)
  | exceeds_pending (itemId : Nat)
  | insufficient_stock (itemId : Nat)
deriving DecidableEq

/-- `BillCreateSerializer.validate_work_order` (serializers.py lines 84-94). -/
def validate_work_order (s : ErpState) (woId : Nat) : Except BillCreateError WorkOrder :=
  match lookup s.work_orders woId with
  | none => .error .work_order_not_found
  | some wo =>
    if wo.status = WOStatus.COMPLETED then .error .work_order_completed else .ok wo

/-- The per-item loop of `BillCreateSerializer.validate_items`
(serializers.py lines 101-127): existence, pending bound, then (for
product-linked items) the stock bound; first failure wins. -/
def validateItemList (s : ErpState) : List BillItemInput → Except BillCreateError Unit
  | [] => .ok ()
  | inp :: rest =>
    match lookup s.work_order_items inp.work_order_item with
    | none => .error (.item_not_found inp.work_order_item)
    | some wo_item =>
      if wo_item.pending_quantity < inp.delivered_quantity then
        .error (.exceeds_pending inp.work_order_item)
      else
        match wo_item.product with
        | some pid =>
          if stockOf s pid < inp.delivered_quantity then
            .error (.insufficient_stock inp.work_order_item)
          else validateItemList s rest
        | none => validateItemList s rest

/-- `BillCreateSerializer.validate_items` (serializers.py lines 96-127). -/
def validate_items (s : ErpState) (items : List BillItemInput) :
    Except BillCreateError Unit :=
  if items = [] then .error .no_items else validateItemList s items

/-- The bill items created by `BillCreateSerializer.create` (lines 147-156):
each input snapshots the referenced work-order item, which validation has
shown to exist and which is not mutated before all snapshots are taken. -/
def mkBillItems (s : ErpState) (inps : List BillItemInput) : List BillItem :=
  inps.filterMap (fun inp =>
    (lookup s.work_order_items inp.work_order_item).map
      (fun it => BillItem.snapshot it inp.work_order_item inp.delivered_quantity))

/-- The mutation phase of `BillCreateSerializer.create` (lines 129-167),
run only after validation passed: create the bill and its items,
`calculate_totals`, `update_work_order_advance`, `deduct_stock`, and the
closing `work_order.update_status()`. -/
def createApply (req : BillCreateRequest) (wo : WorkOrder) (s : ErpState) : ErpState :=
  let bill := Bill.calculate_totals wo (Bill.new req.work_order (mkBillItems s req.items))
  let wo1 := Bill.update_work_order_advance bill wo
  let acc := Bill.deduct_stock bill (s.products, s.work_order_items)
  let wo2 := WorkOrder.update_status (itemsOf acc.2 req.work_order) wo1
  { products := acc.1
    work_order_items := acc.2
    work_orders := updateKey s.work_orders req.work_order (fun _ => wo2)
    bills := s.bills ++ [bill] }

/-- `BillCreateSerializer` end to end (DRF runs the field validators before
`create` and nothing is persisted on a validation error). -/
def createBill (req : BillCreateRequest) (s : ErpState) : Except BillCreateError ErpState :=
  match validate_work_order s req.work_order with
  | .error e => .error e
  | .ok wo =>
    match validate_items s req.items with
    | .error e => .error e
    | .ok _ => .ok (createApply req wo s)

/-- Rejection kinds of `BillViewSet.cancel` (views.py lines 376-398). -/
inductive CancelError
  | bill_not_found
  | already_cancelled
  | paid_bill
deriving DecidableEq

/-- A dead default used only where a foreign key cannot actually dangle. -/
def WorkOrder.zero : WorkOrder :=
  { cgst_percentage := 0, sgst_percentage := 0, igst_percentage := 0
    advance_amount := 0, advance_deducted := 0, advance_remaining := 0
    total_delivered_value := 0, status := WOStatus.ACTIVE }

/-- The mutation phase of `BillViewSet.cancel` (views.py lines 376-398),
run only after the guards passed: `Bill.restore_stock` (item/stock
reversal, advance reversal, WO save and `update_status`), then
`status = CANCELLED` and a bill save. -/
def cancelApply (i : Nat) (bill : Bill) (s : ErpState) : ErpState :=
  let acc := Bill.restore_stock_items bill (s.products, s.work_order_items)
  let wo := (lookup s.work_orders bill.work_order).getD WorkOrder.zero
  let wo1 := WorkOrder.save
    { wo with
      advance_deducted := wo.advance_deducted - bill.advance_deducted
      total_delivered_value := wo.total_delivered_value - bill.total_amount }
  let wo2 := WorkOrder.update_status (itemsOf acc.2 bill.work_order) wo1
  { products := acc.1
    work_order_items := acc.2
    work_orders := updateKey s.work_orders bill.work_order (fun _ => wo2)
    bills := s.bills.set i { bill with status := BillStatus.CANCELLED } }

/-- `BillViewSet.cancel` (views.py lines 376-398): guards, then the
reversal.  Bills are addressed by their position in the bill table. -/
def cancelBill (i : Nat) (s : ErpState) : Except CancelError ErpState :=
  match s.bills.get? i with
  | none => .error .bill_not_found
  | some bill =>
    if bill.status = BillStatus.CANCELLED then .error .already_cancelled
    else if bill.status = BillStatus.PAID then .error .paid_bill
    else .ok (cancelApply i bill s)

/-- The distinguishable rejection kinds of `mark_paid`
(views.py lines 121-195), in source check order. -/
inductive MarkPaidError
  | cancelled_bill
  | already_paid
  | amount_missing
  | amount_not_numeric
  | amount_not_positive
  | exceeds_outstanding
  | invalid_date
  | invalid_mode
deriving DecidableEq

/-- A `mark_paid` request body.  The three parsed inputs are modelled at the
parser boundary: `raw_amount = none` means the key is absent, `some none`
a value `Decimal(str(...))` rejects, `some (some a)` a value parsing to `a`;
`raw_date = none` means absent or empty, `some none` a string rejected by
`strptime(..., %Y-%m-%d)`, `some (some d)` a string parsing to day `d`;
`payment_mode = none` means the key is absent (the source then defaults the
string to CASH), `some none` a supplied string whose uppercasing is not in
`PAYMENT_MODE_CHOICES`, `some (some m)` one uppercasing to mode `m`. -/
structure MarkPaidRequest where
  raw_amount : Option (Option Money)
  raw_date : Option (Option Nat)
  payment_mode : Option (Option PaymentMode)
deriving DecidableEq

/-- The `payment_mode` default and the membership check against
`BillPayment.PAYMENT_MODE_CHOICES` (views.py lines 175 and 190-195). -/
def parse_payment_mode (m : Option (Option PaymentMode)) : Option PaymentMode :=
  match m with
  | none => some PaymentMode.CASH
  | some m => m

/-- The mutation step of `mark_paid` (views.py lines 197-224): accumulate
`amount_paid`, recompute `balance` with a floor clamp at zero, flip to PAID
exactly on a zero balance, save the bill, then append the ledger row whose
`payment_number` counts the rows existing before it plus one and whose
snapshot pair is the post-update aggregate. -/
def apply_payment (bill : Bill) (amount_paid_now : Money) (payment_date : Nat)
    (mode : PaymentMode) : Bill :=
  let amount_paid := bill.amount_paid + amount_paid_now
  let balance0 := bill.net_payable - amount_paid
  let balance := if balance0 < 0 then 0 else balance0
  let status := if balance = 0 then BillStatus.PAID else bill.status
  let payment_number := bill.payments.length + 1
  let row : BillPayment :=
    { payment_number := payment_number
      amount := amount_paid_now
      payment_date := payment_date
      payment_mode := mode
      total_paid_after := amount_paid
      balance_after := balance }
  { bill with
    amount_paid := amount_paid
    balance := balance
    status := status
    payments := bill.payments ++ [row] }

/-- `BillViewSet.mark_paid` (views.py lines 101-237): the guard rails, the
amount and optional-field parsing, and the mutation, in source order.
`today` is `date.today()`.  Every rejection happens before any mutation. -/
def mark_paid (today : Nat) (req : MarkPaidRequest) (bill : Bill) :
    Except MarkPaidError Bill :=
  if bill.status = BillStatus.CANCELLED then .error .cancelled_bill
  else if bill.status = BillStatus.PAID then .error .already_paid
  else
    match req.raw_amount with
    | none => .error .amount_missing
    | some none => .error .amount_not_numeric
    | some (some amount_paid_now) =>
      if amount_paid_now ≤ 0 then .error .amount_not_positive
      else if bill.net_payable - bill.amount_paid < amount_paid_now then
        .error .exceeds_outstanding
      else
        let parsed_date : Except MarkPaidError Nat :=
          match req.raw_date with
          | none => Except.ok today
          | some none => Except.error MarkPaidError.invalid_date
          | some (some d) => Except.ok d
        match parsed_date with
        | .error e => .error e
        | .ok payment_date =>
          match parse_payment_mode req.payment_mode with
          | none => .error .invalid_mode
          | some mode => .ok (apply_payment bill amount_paid_now payment_date mode)

/-- A sequence of `mark_paid` calls against one bill, each required to
succeed; every call carries its own current date. -/
def runPayments (reqs : List (Nat × MarkPaidRequest)) (bill : Bill) :
    Except MarkPaidError Bill :=
  reqs.foldlM (fun b p => mark_paid p.1 p.2 b) bill

/-- The state-changing operations of the billing core: bill creation, bill
cancellation, payment recording, and the plain `save` hooks of
`WorkOrderItem` and `WorkOrder`. -/
inductive Op
  | create (req : BillCreateRequest)
  | cancel (i : Nat)
  | pay (today : Nat) (i : Nat) (req : MarkPaidRequest)
  | save_item (itemId : Nat)
  | save_work_order (woId : Nat)

/-- A rejected request leaves the store untouched (each endpoint validates
before mutating and runs in one transaction). -/
def runExcept {ε σ : Type} (s : σ) : Except ε σ → σ
  | .ok t => t
  | .error _ => s

/-- Apply one operation to the store; rejections are no-ops on the state. -/
def applyOp (s : ErpState) : Op → ErpState
  | .create req => runExcept s (createBill req s)
  | .cancel i => runExcept s (cancelBill i s)
  | .pay today i req =>
    match s.bills.get? i with
    | none => s
    | some b =>
      match mark_paid today req b with
      | .error _ => s
      | .ok b2 => { s with bills := s.bills.set i b2 }
  | .save_item itemId =>
    { s with work_order_items := updateKey s.work_order_items itemId WorkOrderItem.save }
  | .save_work_order woId =>
    { s with work_orders := updateKey s.work_orders woId WorkOrder.save }

/-- Run a sequence of operations. -/
def runOps (s : ErpState) (ops : List Op) : ErpState :=
  ops.foldl applyOp s

inductive POStatus
  | PENDING | PARTIALLY_RECEIVED | COMPLETED | CANCELLED
deriving DecidableEq

/-- `PurchaseOrderItem` (purchase_orders/models.py lines 138-155). -/
structure PurchaseOrderItem where
  product : Nat
  quantity : Qty
  is_received : Bool
deriving DecidableEq

/-- `PurchaseOrder` with its items (purchase_orders/models.py). -/
structure PurchaseOrder where
  status : POStatus
  items : List PurchaseOrderItem
deriving DecidableEq

/-- `PurchaseOrder.update_status` (purchase_orders/models.py lines 69-81):
recompute from item receipts, skipped entirely when already CANCELLED. -/
def PurchaseOrder.update_status (po : PurchaseOrder) : PurchaseOrder :=
  if po.status = POStatus.CANCELLED then po
  else
    let st :=
      if po.items.all (fun it => it.is_received) then POStatus.COMPLETED
      else if po.items.any (fun it => it.is_received) then POStatus.PARTIALLY_RECEIVED
      else POStatus.PENDING
    { po with status := st }

/-- The state `mark_as_purchased` acts on: the product stock table plus the
purchase order aggregate. -/
structure POState where
  products : List (Nat × Qty)
  po : PurchaseOrder
deriving DecidableEq

inductive POError
  | item_not_found
  | cancelled_po
deriving DecidableEq

/-- `PurchaseOrderItem.mark_as_purchased` (purchase_orders/models.py lines
157-169): raises on a cancelled PO; otherwise, only when the item is not yet
received, adds the quantity to stock, flips `is_received` and recomputes the
PO status.  Items are addressed by their position in the PO's item list. -/
def mark_as_purchased (i : Nat) (s : POState) : Except POError POState :=
  match s.po.items.get? i with
  | none => .error .item_not_found
  | some item =>
    if s.po.status = POStatus.CANCELLED then .error .cancelled_po
    else if item.is_received then .ok s
    else
      let products1 := updateKey s.products item.product (fun st => st + item.quantity)
      let po1 := PurchaseOrder.update_status
        { s.po with items := s.po.items.set i { item with is_received := true } }
      .ok { products := products1, po := po1 }

/-- Some precondition of `mark_paid` fails: the bill is cancelled or already
paid, the amount is missing, non-numeric, non-positive or exceeds the
outstanding balance, the supplied date does not parse, or the supplied mode
is not a recognized one. -/
def markPaidViolation (req : MarkPaidRequest) (b : Bill) : Prop :=
  b.status = BillStatus.CANCELLED ∨ b.status = BillStatus.PAID ∨
  req.raw_amount = none ∨ req.raw_amount = some none ∨
  (∃ a, req.raw_amount = some (some a) ∧ (a ≤ 0 ∨ b.net_payable - b.amount_paid < a)) ∨
  req.raw_date = some none ∨ parse_payment_mode req.payment_mode = none

/-- The precondition whose failure each `mark_paid` rejection kind reports:
the error kinds are distinguishable and truthful. -/
def markPaidErrorCond (e : MarkPaidError) (req : MarkPaidRequest) (b : Bill) : Prop :=
  match e with
  | .cancelled_bill => b.status = BillStatus.CANCELLED
  | .already_paid => b.status = BillStatus.PAID
  | .amount_missing => req.raw_amount = none
  | .amount_not_numeric => req.raw_amount = some none
  | .amount_not_positive => ∃ a, req.raw_amount = some (some a) ∧ a ≤ 0
  | .exceeds_outstanding =>
    ∃ a, req.raw_amount = some (some a) ∧ b.net_payable - b.amount_paid < a
  | .invalid_date => req.raw_date = some none
  | .invalid_mode => parse_payment_mode req.payment_mode = none

/-- The self-auditing shape of a bill's payment ledger: the payment numbers
are exactly `1, 2, ..., n`, the amounts sum to the bill's `amount_paid`, and
the last row's snapshot pair is the bill's current aggregate state. -/
def LedgerInv (b : Bill) : Prop :=
  b.payments.map (fun r => r.payment_number) = List.range' 1 b.payments.length ∧
  (b.payments.map (fun r => r.amount)).sum = b.amount_paid ∧
  ∀ row, b.payments.getLast? = some row →
    row.total_paid_after = b.amount_paid ∧ row.balance_after = b.balance

/-- A `mark_paid` request carrying only a parsed amount (scenario B shape). -/
def reqPay (a : Money) : MarkPaidRequest :=
  { raw_amount := some (some a), raw_date := none, payment_mode := none }

/-- Scenario B's bill right after generation: `net_payable = 100000`,
nothing paid yet. -/
def billW : Bill :=
  { work_order := 0, items := [], subtotal := 100000
    cgst_percentage := 0, sgst_percentage := 0, igst_percentage := 0
    cgst_amount := 0, sgst_amount := 0, igst_amount := 0
    total_amount := 100000, advance_deducted := 0, net_payable := 100000
    amount_paid := 0, balance := 100000
    status := BillStatus.GENERATED, payments := [] }

/-- Scenario B's bill after the first 40000 instalment. -/
def billW1 : Bill :=
  { billW with
    amount_paid := 40000, balance := 60000
    payments :=
      [ { payment_number := 1, amount := 40000, payment_date := 7
          payment_mode := PaymentMode.CASH
          total_paid_after := 40000, balance_after := 60000 } ] }

/-- Scenario B's bill after the 40000 and 60000 instalments. -/
def billW2 : Bill :=
  { billW with
    amount_paid := 100000, balance := 0, status := BillStatus.PAID
    payments :=
      [ { payment_number := 1, amount := 40000, payment_date := 7
          payment_mode := PaymentMode.CASH
          total_paid_after := 40000, balance_after := 60000 }
      , { payment_number := 2, amount := 60000, payment_date := 7
          payment_mode := PaymentMode.CASH
          total_paid_after := 100000, balance_after := 0 } ] }

/-- A purchase order with one already-received item, for exercising the
receipt idempotence at a concrete input. -/
def poW : PurchaseOrder :=
  { status := POStatus.COMPLETED
    items := [ { product := 1, quantity := 5, is_received := true } ] }

/-- The stock state around `poW`. -/
def poStateW : POState :=
  { products := [(1, 10)], po := poW }

/-- A cancelled work order, kept cancelled in the store. -/
def woC : WorkOrder :=
  { cgst_percentage := 0, sgst_percentage := 0, igst_percentage := 0
    advance_amount := 0, advance_deducted := 0, advance_remaining := 0
    total_delivered_value := 0, status := WOStatus.CANCELLED }

/-- An undelivered item of `woC`. -/
def itemC : WorkOrderItem :=
  { work_order := 0, product := none, ordered_quantity := 5
    delivered_quantity := 0, pending_quantity := 5, rate := 1, amount := 5 }

/-- Some per-item precondition of bill creation fails for this input row:
the referenced work-order item does not exist, the delivered quantity
exceeds its pending quantity, or (for a product-linked item) it exceeds the
product's current stock. -/
def itemViolation (s : ErpState) (inp : BillItemInput) : Prop :=
  lookup s.work_order_items inp.work_order_item = none ∨
  ∃ it, lookup s.work_order_items inp.work_order_item = some it ∧
    (it.pending_quantity < inp.delivered_quantity ∨
     ∃ pid, it.product = some pid ∧ stockOf s pid < inp.delivered_quantity)

/-- The per-item precondition each item-level rejection kind reports,
relative to the request's item list. -/
def itemErrorCond (e : BillCreateError) (s : ErpState) (l : List BillItemInput) : Prop :=
  match e with
  | .item_not_found i =>
    (∃ inp ∈ l, inp.work_order_item = i) ∧ lookup s.work_order_items i = none
  | .exceeds_pending i =>
    ∃ inp ∈ l, inp.work_order_item = i ∧
      ∃ it, lookup s.work_order_items i = some it ∧
        it.pending_quantity < inp.delivered_quantity
  | .insufficient_stock i =>
    ∃ inp ∈ l, inp.work_order_item = i ∧
      ∃ it pid, lookup s.work_order_items i = some it ∧ it.product = some pid ∧
        stockOf s pid < inp.delivered_quantity
  | _ => False

/-- The precondition whose failure each bill-creation rejection kind
reports: the error kinds are distinguishable and truthful. -/
def billCreateErrorCond (e : BillCreateError) (s : ErpState) (req : BillCreateRequest) :
    Prop :=
  match e with
  | .work_order_not_found => lookup s.work_orders req.work_order = none
  | .work_order_completed =>
    ∃ wo, lookup s.work_orders req.work_order = some wo ∧ wo.status = WOStatus.COMPLETED
  | .no_items => req.items = []
  | _ => itemErrorCond e s req.items

/-- Some precondition of bill creation fails: missing work order, completed
work order, empty item list, or a per-item violation. -/
def createViolation (s : ErpState) (req : BillCreateRequest) : Prop :=
  lookup s.work_orders req.work_order = none ∨
  (∃ wo, lookup s.work_orders req.work_order = some wo ∧
    wo.status = WOStatus.COMPLETED) ∨
  req.items = [] ∨ ∃ inp ∈ req.items, itemViolation s inp

/-- A work order in its initial state (nothing delivered, no advance). -/
def woActive : WorkOrder :=
  { cgst_percentage := 0, sgst_percentage := 0, igst_percentage := 0
    advance_amount := 0, advance_deducted := 0, advance_remaining := 0
    total_delivered_value := 0, status := WOStatus.ACTIVE }

/-- Scenario C's work-order item: 20 ordered, nothing delivered yet, linked
to product 1. -/
def itemS : WorkOrderItem :=
  { work_order := 5, product := some 1, ordered_quantity := 20
    delivered_quantity := 0, pending_quantity := 20, rate := 10, amount := 200 }

/-- Scenario C's store: product 1 has only 5 units in stock. -/
def stC : ErpState :=
  { products := [(1, 5)], work_order_items := [(10, itemS)]
    work_orders := [(5, woActive)], bills := [] }

/-- Scenario C's request: deliver 10 units against a stock of 5. -/
def reqC : BillCreateRequest :=
  { work_order := 5, items := [{ work_order_item := 10, delivered_quantity := 10 }] }

/-- Does this bill item touch product `k` (it carries `product = some k`)? -/
def prodTouches (k : Nat) (bi : BillItem) : Bool :=
  bi.product == some k

/-- Does this bill item mutate work-order item `k` (it is product linked and
references item `k`)? -/
def itemTouches (k : Nat) (bi : BillItem) : Bool :=
  bi.product.isSome && bi.work_order_item == k

/-- Total delivered quantity a bill's items charge against product `k`. -/
def stockContribution (k : Nat) (bis : List BillItem) : Qty :=
  ((bis.filter (prodTouches k)).map (fun bi => bi.delivered_quantity)).sum

/-- Total delivered quantity a bill's items add to work-order item `k`. -/
def deliveredContribution (k : Nat) (bis : List BillItem) : Qty :=
  ((bis.filter (itemTouches k)).map (fun bi => bi.delivered_quantity)).sum

/-- The netto effect of `deduct_stock` on one work-order item: add `d` to
`delivered_quantity` and save. -/
def addDeliver (d : Qty) (it : WorkOrderItem) : WorkOrderItem :=
  WorkOrderItem.save { it with delivered_quantity := it.delivered_quantity + d }

/-- Scenario A's work-order item: 100 ordered at rate 10, product linked. -/
def itemA : WorkOrderItem :=
  { work_order := 5, product := some 1, ordered_quantity := 100
    delivered_quantity := 0, pending_quantity := 100, rate := 10, amount := 1000 }

/-- Scenario A's store: product 1 has 100 units in stock, nothing delivered,
no advance. -/
def stA : ErpState :=
  { products := [(1, 100)], work_order_items := [(10, itemA)]
    work_orders := [(5, woActive)], bills := [] }

/-- Scenario A's request: deliver 40 units. -/
def reqA : BillCreateRequest :=
  { work_order := 5, items := [{ work_order_item := 10, delivered_quantity := 40 }] }

/-- Scenario A's work-order item after the bill: 40 delivered, 60 pending. -/
def itemA2 : WorkOrderItem :=
  { work_order := 5, product := some 1, ordered_quantity := 100
    delivered_quantity := 40, pending_quantity := 60, rate := 10, amount := 1000 }

/-- Scenario A's work order after the bill. -/
def woA2 : WorkOrder :=
  { cgst_percentage := 0, sgst_percentage := 0, igst_percentage := 0
    advance_amount := 0, advance_deducted := 0, advance_remaining := 0
    total_delivered_value := 400, status := WOStatus.PARTIALLY_DELIVERED }

/-- Scenario A's bill item snapshot. -/
def biA : BillItem :=
  { work_order_item := 10, product := some 1, ordered_quantity := 100
    previously_delivered_quantity := 0, delivered_quantity := 40
    pending_quantity := 60, rate := 10, amount := 400 }

/-- Scenario A's bill. -/
def billA2 : Bill :=
  { work_order := 5, items := [biA], subtotal := 400
    cgst_percentage := 0, sgst_percentage := 0, igst_percentage := 0
    cgst_amount := 0, sgst_amount := 0, igst_amount := 0
    total_amount := 400, advance_deducted := 0, net_payable := 400
    amount_paid := 0, balance := 400
    status := BillStatus.GENERATED, payments := [] }

/-- Scenario A's store after the bill. -/
def sA2 : ErpState :=
  { products := [(1, 60)], work_order_items := [(10, itemA2)]
    work_orders := [(5, woA2)], bills := [billA2] }

/-- The proviso the serializer fails to enforce: a bill-creation request
supplies non-negative delivered quantities and references each work-order
item at most once.  Non-create operations carry no proviso. -/
def Op.Provisos : Op → Prop
  | .create req =>
    (∀ inp ∈ req.items, 0 ≤ inp.delivered_quantity) ∧
    (req.items.map (fun inp => inp.work_order_item)).Nodup
  | _ => True

/-- Sum of `advance_deducted` over the non-CANCELLED bills of work order
`wid`. -/
def billsAdvSum (bills : List Bill) (wid : Nat) : Money :=
  ((bills.filter (fun b =>
      decide (b.work_order = wid ∧ ¬ b.status = BillStatus.CANCELLED))).map
    (fun b => b.advance_deducted)).sum

/-- Sum over the non-CANCELLED bills of the delivered quantity their
product-linked items charge against work-order item `k`. -/
def billsDeliveredSum (bills : List Bill) (k : Nat) : Qty :=
  ((bills.filter (fun b => decide (¬ b.status = BillStatus.CANCELLED))).map
    (fun b => deliveredContribution k b.items)).sum

/-- Primary keys are unique (as in the underlying database). -/
def WellKeyed (s : ErpState) : Prop :=
  (s.work_order_items.map Prod.fst).Nodup ∧ (s.work_orders.map Prod.fst).Nodup

/-- The stored-field identity `pending = ordered - delivered` on every
work-order item row. -/
def InvPending (s : ErpState) : Prop :=
  ∀ p ∈ s.work_order_items,
    (p.2).pending_quantity = (p.2).ordered_quantity - (p.2).delivered_quantity

/-- The advance-pool invariants of C7, plus the auxiliary facts that keep
them inductive: rates and tax percentages are non-negative, and every
bill's `advance_deducted` is non-negative. -/
def InvAdvance (s : ErpState) : Prop :=
  (∀ p ∈ s.work_orders,
    (p.2).advance_remaining = (p.2).advance_amount - (p.2).advance_deducted) ∧
  (∀ p ∈ s.work_orders, 0 ≤ (p.2).advance_remaining) ∧
  (∀ p ∈ s.work_orders, (p.2).advance_deducted = billsAdvSum s.bills p.1) ∧
  (∀ b ∈ s.bills, 0 ≤ b.advance_deducted) ∧
  (∀ p ∈ s.work_order_items, 0 ≤ (p.2).rate) ∧
  (∀ p ∈ s.work_orders,
    0 ≤ (p.2).cgst_percentage ∧ 0 ≤ (p.2).sgst_percentage ∧ 0 ≤ (p.2).igst_percentage)

/-- The item-quantity invariants of C6, plus the bookkeeping that keeps
them inductive: each item's delivered quantity is the sum of the
non-cancelled bills' contributions, and bill items carry non-negative
quantities. -/
def InvItems (s : ErpState) : Prop :=
  (∀ p ∈ s.work_order_items,
    0 ≤ (p.2).delivered_quantity ∧ (p.2).delivered_quantity ≤ (p.2).ordered_quantity) ∧
  (∀ p ∈ s.work_order_items,
    (p.2).delivered_quantity = billsDeliveredSum s.bills p.1) ∧
  (∀ b ∈ s.bills, ∀ bi ∈ b.items, 0 ≤ bi.delivered_quantity)

/-- The conjunction carried through the operation induction. -/
def CoreInv (s : ErpState) : Prop :=
  WellKeyed s ∧ InvPending s ∧ InvAdvance s ∧ InvItems s

/-- A store as it stands right after work orders and their items are
created and before any bill exists: nothing delivered, no advance consumed,
non-negative quantities, rates, percentages and advances, unique keys. -/
def FreshState (s : ErpState) : Prop :=
  s.bills = [] ∧
  (∀ p ∈ s.work_order_items,
    (p.2).delivered_quantity = 0 ∧
    (p.2).pending_quantity = (p.2).ordered_quantity ∧
    0 ≤ (p.2).ordered_quantity ∧ 0 ≤ (p.2).rate) ∧
  (∀ p ∈ s.work_orders,
    (p.2).advance_deducted = 0 ∧
    (p.2).advance_remaining = (p.2).advance_amount ∧
    0 ≤ (p.2).advance_amount ∧
    0 ≤ (p.2).cgst_percentage ∧ 0 ≤ (p.2).sgst_percentage ∧ 0 ≤ (p.2).igst_percentage) ∧
  WellKeyed s

/-- A bill-creation request carrying a negative delivered quantity (the
serializer has no positivity check). -/
def reqN : BillCreateRequest :=
  { work_order := 5, items := [{ work_order_item := 10, delivered_quantity := -5 }] }

/-- The work-order item row after `reqN` is applied to scenario A's store:
5 units "undelivered". -/
def itN2 : WorkOrderItem :=
  { work_order := 5, product := some 1, ordered_quantity := 100
    delivered_quantity := -5, pending_quantity := 105, rate := 10, amount := 1000 }

/-- A bill-creation request referencing the same work-order item twice
(the serializer validates each entry against the unmutated store). -/
def reqD : BillCreateRequest :=
  { work_order := 5
    items := [{ work_order_item := 10, delivered_quantity := 60 },
              { work_order_item := 10, delivered_quantity := 60 }] }

/-- The work-order item row after `reqD` is applied to scenario A's store:
120 delivered out of 100 ordered. -/
def itD2 : WorkOrderItem :=
  { work_order := 5, product := some 1, ordered_quantity := 100
    delivered_quantity := 120, pending_quantity := -20, rate := 10, amount := 1000 }

/-- Scenario E (advance-pool counterexample): a zero-quantity work-order
item, product linked. -/
def itE20 : WorkOrderItem :=
  { work_order := 9, product := some 2, ordered_quantity := 0
    delivered_quantity := 0, pending_quantity := 0, rate := 1, amount := 0 }

/-- Scenario E: a 200-unit work-order item, product linked. -/
def itE21 : WorkOrderItem :=
  { work_order := 9, product := some 3, ordered_quantity := 200
    delivered_quantity := 0, pending_quantity := 200, rate := 1, amount := 200 }

/-- Scenario E's work order: no advance at all. -/
def woE : WorkOrder :=
  { cgst_percentage := 0, sgst_percentage := 0, igst_percentage := 0
    advance_amount := 0, advance_deducted := 0, advance_remaining := 0
    total_delivered_value := 0, status := WOStatus.ACTIVE }

/-- Scenario E's store. -/
def stE : ErpState :=
  { products := [(2, 0), (3, 200)]
    work_order_items := [(20, itE20), (21, itE21)]
    work_orders := [(9, woE)], bills := [] }

/-- Scenario E, first request: "deliver" -100 units of item 20. -/
def reqE1 : BillCreateRequest :=
  { work_order := 9, items := [{ work_order_item := 20, delivered_quantity := -100 }] }

/-- Scenario E, second request: deliver 100 units of item 21. -/
def reqE2 : BillCreateRequest :=
  { work_order := 9, items := [{ work_order_item := 21, delivered_quantity := 100 }] }

/-- Scenario E: the bill item of the first bill. -/
def biE0 : BillItem :=
  { work_order_item := 20, product := some 2, ordered_quantity := 0
    previously_delivered_quantity := 0, delivered_quantity := -100
    pending_quantity := 100, rate := 1, amount := -100 }

/-- Scenario E: the first bill, total -100, advance deduction
min(-100, 0) = -100. -/
def billE0 : Bill :=
  { work_order := 9, items := [biE0], subtotal := -100
    cgst_percentage := 0, sgst_percentage := 0, igst_percentage := 0
    cgst_amount := 0, sgst_amount := 0, igst_amount := 0
    total_amount := -100, advance_deducted := -100, net_payable := 0
    amount_paid := 0, balance := 0, status := BillStatus.GENERATED, payments := [] }

/-- Scenario E: item 20 after the first bill. -/
def itE20a : WorkOrderItem :=
  { work_order := 9, product := some 2, ordered_quantity := 0
    delivered_quantity := -100, pending_quantity := 100, rate := 1, amount := 0 }

/-- Scenario E: the work order after the first bill; the negative deduction
has inflated `advance_remaining` to 100 out of a 0 advance pool. -/
def woE1 : WorkOrder :=
  { cgst_percentage := 0, sgst_percentage := 0, igst_percentage := 0
    advance_amount := 0, advance_deducted := -100, advance_remaining := 100
    total_delivered_value := -100, status := WOStatus.ACTIVE }

/-- Scenario E: the store after the first bill. -/
def sE1 : ErpState :=
  { products := [(2, 100), (3, 200)]
    work_order_items := [(20, itE20a), (21, itE21)]
    work_orders := [(9, woE1)], bills := [billE0] }

/-- Scenario E: the bill item of the second bill. -/
def biE1 : BillItem :=
  { work_order_item := 21, product := some 3, ordered_quantity := 200
    previously_delivered_quantity := 0, delivered_quantity := 100
    pending_quantity := 100, rate := 1, amount := 100 }

/-- Scenario E: the second bill, total 100, consuming the phantom
100 of remaining advance. -/
def billE1 : Bill :=
  { work_order := 9, items := [biE1], subtotal := 100
    cgst_percentage := 0, sgst_percentage := 0, igst_percentage := 0
    cgst_amount := 0, sgst_amount := 0, igst_amount := 0
    total_amount := 100, advance_deducted := 100, net_payable := 0
    amount_paid := 0, balance := 0, status := BillStatus.GENERATED, payments := [] }

/-- Scenario E: item 21 after the second bill. -/
def itE21a : WorkOrderItem :=
  { work_order := 9, product := some 3, ordered_quantity := 200
    delivered_quantity := 100, pending_quantity := 100, rate := 1, amount := 200 }

/-- Scenario E: the work order after the second bill. -/
def woE2 : WorkOrder :=
  { cgst_percentage := 0, sgst_percentage := 0, igst_percentage := 0
    advance_amount := 0, advance_deducted := 0, advance_remaining := 0
    total_delivered_value := 0, status := WOStatus.PARTIALLY_DELIVERED }

/-- Scenario E: the store after the second bill. -/
def sE2 : ErpState :=
  { products := [(2, 100), (3, 100)]
    work_order_items := [(20, itE20a), (21, itE21a)]
    work_orders := [(9, woE2)], bills := [billE0, billE1] }

/-- Scenario E: the work order after the first bill is cancelled: its -100
deduction is added back, leaving `advance_remaining = -100`. -/
def woE3 : WorkOrder :=
  { cgst_percentage := 0, sgst_percentage := 0, igst_percentage := 0
    advance_amount := 0, advance_deducted := 100, advance_remaining := -100
    total_delivered_value := 100, status := WOStatus.PARTIALLY_DELIVERED }

/-- Scenario E: the store after the cancellation. -/
def sE3 : ErpState :=
  { products := [(2, 0), (3, 100)]
    work_order_items := [(20, itE20), (21, itE21a)]
    work_orders := [(9, woE3)]
    bills := [{ billE0 with status := BillStatus.CANCELLED }, billE1] }

end Erp

namespace Erp

theorem lookup_updateKey {α : Type} (l : List (Nat × α)) (k j : Nat) (f : α → α) :
    lookup (updateKey l k f) j = if j = k then (lookup l j).map f else lookup l j := by
  induction l with
  | nil => simp [lookup, updateKey]
  | cons p l ih =>
    by_cases hpk : p.1 = k
    · by_cases hpj : p.1 = j
      · simp [lookup, updateKey, hpk, hpj, hpk ▸ hpj]
      · have hjk : ¬ j = k := fun h => hpj (h ▸ hpk)
        have hkj : ¬ k = j := fun h => hjk h.symm
        simp [lookup, updateKey, hpk, hpj, hjk, hkj, ih]
    · by_cases hpj : p.1 = j
      · have hjk : ¬ j = k := fun h => hpk (h ▸ hpj)
        simp [lookup, updateKey, hpk, hpj, hjk]
      · simp [lookup, updateKey, hpk, hpj, ih]

theorem lookup_mem {α : Type} (l : List (Nat × α)) (k : Nat) (v : α)
    (h : lookup l k = some v) : (k, v) ∈ l := by
  induction l with
  | nil => simp [lookup] at h
  | cons p l ih =>
    by_cases hpk : p.1 = k
    · simp [lookup, hpk] at h
      subst h
      exact hpk ▸ (List.mem_cons_self p l)
    · simp [lookup, hpk] at h
      exact List.mem_cons_of_mem p (ih h)

theorem mark_paid_ok_inv (today : Nat) (req : MarkPaidRequest) (b b2 : Bill)
    (h : mark_paid today req b = Except.ok b2) :
    b.status ≠ BillStatus.CANCELLED ∧ b.status ≠ BillStatus.PAID ∧
    req.raw_date ≠ some none ∧
    ∃ a, req.raw_amount = some (some a) ∧ 0 < a ∧
      a ≤ b.net_payable - b.amount_paid ∧
      ∃ pd mode, parse_payment_mode req.payment_mode = some mode ∧
        (req.raw_date = none → pd = today) ∧
        (∀ d, req.raw_date = some (some d) → pd = d) ∧
        b2 = apply_payment b a pd mode := by
  unfold mark_paid at h
  by_cases h1 : b.status = BillStatus.CANCELLED
  · simp [h1] at h
  by_cases h2 : b.status = BillStatus.PAID
  · simp [h1, h2] at h
  refine ⟨h1, h2, ?_⟩
  simp only [if_neg h1, if_neg h2] at h
  match hamt : req.raw_amount with
  | none => rw [hamt] at h; exact absurd h (by simp)
  | some none => rw [hamt] at h; exact absurd h (by simp)
  | some (some a) =>
    rw [hamt] at h
    by_cases h3 : a ≤ 0
    · simp [h3] at h
    by_cases h4 : b.net_payable - b.amount_paid < a
    · simp [h3, h4] at h
    simp only [if_neg h3, if_neg h4] at h
    match hdate : req.raw_date with
    | some none => rw [hdate] at h; exact absurd h (by simp)
    | none =>
      rw [hdate] at h
      refine ⟨by simp, a, rfl, lt_of_not_le h3, le_of_not_lt h4, ?_⟩
      match hmode : parse_payment_mode req.payment_mode with
      | none => rw [hmode] at h; exact absurd h (by simp)
      | some mode =>
        rw [hmode] at h
        simp at h
        exact ⟨today, mode, rfl, fun _ => rfl, fun d hd => by simp at hd, h.symm⟩
    | some (some d) =>
      rw [hdate] at h
      refine ⟨by simp, a, rfl, lt_of_not_le h3, le_of_not_lt h4, ?_⟩
      match hmode : parse_payment_mode req.payment_mode with
      | none => rw [hmode] at h; exact absurd h (by simp)
      | some mode =>
        rw [hmode] at h
        simp at h
        exact ⟨d, mode, rfl, fun hn => by simp at hn,
          fun e he => by simp at he; exact he ▸ rfl, h.symm⟩

theorem mark_paid_error_inv (today : Nat) (req : MarkPaidRequest) (b : Bill)
    (e : MarkPaidError) (h : mark_paid today req b = Except.error e) :
    markPaidViolation req b ∧ markPaidErrorCond e req b := by
  unfold mark_paid at h
  by_cases h1 : b.status = BillStatus.CANCELLED
  · rw [if_pos h1] at h
    cases h
    exact ⟨Or.inl h1, h1⟩
  rw [if_neg h1] at h
  by_cases h2 : b.status = BillStatus.PAID
  · rw [if_pos h2] at h
    cases h
    exact ⟨Or.inr (Or.inl h2), h2⟩
  rw [if_neg h2] at h
  rcases hA : req.raw_amount with _ | (_ | a)
  · rw [hA] at h
    cases h
    exact ⟨Or.inr (Or.inr (Or.inl hA)), hA⟩
  · rw [hA] at h
    cases h
    exact ⟨Or.inr (Or.inr (Or.inr (Or.inl hA))), hA⟩
  · rw [hA] at h
    by_cases h3 : a ≤ 0
    · simp only [if_pos h3] at h
      cases h
      exact ⟨Or.inr (Or.inr (Or.inr (Or.inr (Or.inl ⟨a, hA, Or.inl h3⟩)))),
        ⟨a, hA, h3⟩⟩
    simp only [if_neg h3] at h
    by_cases h4 : b.net_payable - b.amount_paid < a
    · simp only [if_pos h4] at h
      cases h
      exact ⟨Or.inr (Or.inr (Or.inr (Or.inr (Or.inl ⟨a, hA, Or.inr h4⟩)))),
        ⟨a, hA, h4⟩⟩
    simp only [if_neg h4] at h
    rcases hD : req.raw_date with _ | (_ | d)
    · rw [hD] at h
      match hmode : parse_payment_mode req.payment_mode with
      | none =>
        rw [hmode] at h
        cases h
        exact ⟨Or.inr (Or.inr (Or.inr (Or.inr (Or.inr (Or.inr hmode))))), hmode⟩
      | some mode => rw [hmode] at h; cases h
    · rw [hD] at h
      cases h
      exact ⟨Or.inr (Or.inr (Or.inr (Or.inr (Or.inr (Or.inl hD))))), hD⟩
    · rw [hD] at h
      match hmode : parse_payment_mode req.payment_mode with
      | none =>
        rw [hmode] at h
        cases h
        exact ⟨Or.inr (Or.inr (Or.inr (Or.inr (Or.inr (Or.inr hmode))))), hmode⟩
      | some mode => rw [hmode] at h; cases h

/-- C4: `mark_paid` rejects exactly when some precondition fails — the bill
is CANCELLED, the bill is already PAID (scenario B's third call), the amount
is missing, non-numeric, non-positive or exceeds `net_payable - amount_paid`,
the supplied `payment_date` does not parse, or the `payment_mode` is not a
recognized value — and each reported rejection kind truthfully names the
violated precondition, so the caller can distinguish them.  A rejection
returns before any mutation, so the bill, its ledger and every other entity
are untouched (the embedding's error branch carries no state).  On success
with `payment_date` omitted, the created ledger row's date is the current
date. -/
theorem c4_mark_paid_guards (today : Nat) (req : MarkPaidRequest) (b : Bill) :
    (markPaidViolation req b ↔ ∃ e, mark_paid today req b = Except.error e) ∧
    (∀ e, mark_paid today req b = Except.error e → markPaidErrorCond e req b) ∧
    (∀ b2, req.raw_date = none → mark_paid today req b = Except.ok b2 →
      ∃ row, b2.payments = b.payments ++ [row] ∧ row.payment_date = today) := by
  refine ⟨⟨?_, ?_⟩, ?_, ?_⟩
  · intro hv
    cases hr : mark_paid today req b with
    | error e => exact ⟨e, rfl⟩
    | ok b2 =>
      obtain ⟨h1, h2, hd, a, hamt, ha, hle, pd, mode, hmode, -, -, -⟩ :=
        mark_paid_ok_inv today req b b2 hr
      rcases hv with hx | hx | hx | hx | ⟨a2, ha2, hbad⟩ | hx | hx
      · exact absurd hx h1
      · exact absurd hx h2
      · rw [hamt] at hx; cases hx
      · rw [hamt] at hx; simp at hx
      · rw [hamt] at ha2
        have : a = a2 := by simpa using ha2
        subst this
        rcases hbad with hb | hb
        · exact absurd hb (not_le.mpr ha)
        · exact absurd hb (not_lt.mpr hle)
      · exact absurd hx hd
      · rw [hmode] at hx; cases hx
  · rintro ⟨e, he⟩
    exact (mark_paid_error_inv today req b e he).1
  · intro e he
    exact (mark_paid_error_inv today req b e he).2
  · intro b2 hdn hok
    obtain ⟨-, -, -, a, -, -, -, pd, mode, -, hpdn, -, hb2⟩ :=
      mark_paid_ok_inv today req b b2 hok
    subst hb2
    exact ⟨_, rfl, hpdn hdn⟩

theorem c4_mark_paid_guards_witness :
    ∃ e, mark_paid 7 (reqPay 1) billW2 = Except.error e :=
  (c4_mark_paid_guards 7 (reqPay 1) billW2).1.mp (Or.inr (Or.inl (by decide)))

/-- C3: a successful `mark_paid` of amount `a` on a bill that is not PAID
and not CANCELLED, with `0 < a ≤ net_payable - amount_paid`, increases
`amount_paid` by exactly `a`, sets `balance = max 0 (net_payable -
amount_paid)`, flips the status to PAID exactly when the new balance is
zero, and appends one ledger row with amount `a`, `payment_number` = prior
row count + 1, and the post-update aggregates as its snapshot pair. -/
theorem c3_mark_paid_step (today : Nat) (req : MarkPaidRequest) (b : Bill) (a : Money)
    (h1 : b.status ≠ BillStatus.CANCELLED) (h2 : b.status ≠ BillStatus.PAID)
    (hamt : req.raw_amount = some (some a)) (ha : 0 < a)
    (hle : a ≤ b.net_payable - b.amount_paid)
    (hdate : req.raw_date ≠ some none)
    (hmode : parse_payment_mode req.payment_mode ≠ none) :
    ∃ b2, mark_paid today req b = Except.ok b2 ∧
      b2.amount_paid = b.amount_paid + a ∧
      b2.balance = max 0 (b.net_payable - b2.amount_paid) ∧
      b2.net_payable = b.net_payable ∧
      (b2.status = BillStatus.PAID ↔ b2.balance = 0) ∧
      ∃ row, b2.payments = b.payments ++ [row] ∧
        row.amount = a ∧
        row.payment_number = b.payments.length + 1 ∧
        row.total_paid_after = b2.amount_paid ∧
        row.balance_after = b2.balance := by
  have h3 : ¬ a ≤ 0 := not_le.mpr ha
  have h4 : ¬ b.net_payable - b.amount_paid < a := not_lt.mpr hle
  obtain ⟨mode, hmode2⟩ : ∃ m, parse_payment_mode req.payment_mode = some m :=
    Option.ne_none_iff_exists'.mp hmode
  have hbal0 : (0 : ℚ) ≤ b.net_payable - (b.amount_paid + a) := by
    have := sub_nonneg.mpr hle
    linarith
  have hclamp : ¬ b.net_payable - (b.amount_paid + a) < 0 := not_lt.mpr hbal0
  have happly :
      ∀ pd, ∃ b2, apply_payment b a pd mode = b2 ∧
        b2.amount_paid = b.amount_paid + a ∧
        b2.balance = max 0 (b.net_payable - b2.amount_paid) ∧
        b2.net_payable = b.net_payable ∧
        (b2.status = BillStatus.PAID ↔ b2.balance = 0) ∧
        ∃ row, b2.payments = b.payments ++ [row] ∧
          row.amount = a ∧
          row.payment_number = b.payments.length + 1 ∧
          row.total_paid_after = b2.amount_paid ∧
          row.balance_after = b2.balance := by
    intro pd
    refine ⟨apply_payment b a pd mode, rfl, ?_, ?_, ?_, ?_, ?_⟩
    · simp [apply_payment]
    · simp only [apply_payment]
      rw [if_neg hclamp, max_eq_right hbal0]
    · simp [apply_payment]
    · simp only [apply_payment]
      rw [if_neg hclamp]
      by_cases hz : b.net_payable - (b.amount_paid + a) = 0
      · simp [hz]
      · simp only [if_neg hz]
        exact ⟨fun hs => absurd hs h2, fun hzz => absurd hzz hz⟩
    · refine
        ⟨{ payment_number := b.payments.length + 1
           amount := a
           payment_date := pd
           payment_mode := mode
           total_paid_after := b.amount_paid + a
           balance_after :=
             if b.net_payable - (b.amount_paid + a) < 0 then 0
             else b.net_payable - (b.amount_paid + a) }, ?_, ?_, ?_, ?_, ?_⟩ <;>
        simp [apply_payment]
  rcases hD : req.raw_date with _ | (_ | d)
  · obtain ⟨b2, hb2, rest⟩ := happly today
    refine ⟨b2, ?_, rest⟩
    rw [← hb2]
    simp [mark_paid, if_neg h1, if_neg h2, hamt, if_neg h3, if_neg h4, hD, hmode2]
  · exact absurd hD hdate
  · obtain ⟨b2, hb2, rest⟩ := happly d
    refine ⟨b2, ?_, rest⟩
    rw [← hb2]
    simp [mark_paid, if_neg h1, if_neg h2, hamt, if_neg h3, if_neg h4, hD, hmode2]

theorem c3_mark_paid_step_witness :
    ∃ b2, mark_paid 7 (reqPay 40000) billW = Except.ok b2 ∧
      b2.amount_paid = billW.amount_paid + 40000 ∧
      b2.balance = max 0 (billW.net_payable - b2.amount_paid) ∧
      b2.net_payable = billW.net_payable ∧
      (b2.status = BillStatus.PAID ↔ b2.balance = 0) ∧
      ∃ row, b2.payments = billW.payments ++ [row] ∧
        row.amount = 40000 ∧
        row.payment_number = billW.payments.length + 1 ∧
        row.total_paid_after = b2.amount_paid ∧
        row.balance_after = b2.balance :=
  c3_mark_paid_step 7 (reqPay 40000) billW 40000 (by decide) (by decide) rfl
    (by norm_num) (by norm_num [billW]) (by decide) (by decide)

theorem ledger_inv_step (today : Nat) (req : MarkPaidRequest) (b b2 : Bill)
    (h : mark_paid today req b = Except.ok b2) (hb : LedgerInv b) : LedgerInv b2 := by
  obtain ⟨-, -, -, a, -, -, -, pd, mode, -, -, -, hb2⟩ :=
    mark_paid_ok_inv today req b b2 h
  subst hb2
  obtain ⟨hnum, hsum, hlast⟩ := hb
  refine ⟨?_, ?_, ?_⟩
  · simp only [apply_payment, List.map_append, List.length_append, List.map_cons,
      List.map_nil, List.length_cons, List.length_nil]
    rw [hnum, List.range'_concat]
    simp [Nat.add_comm]
  · simp only [apply_payment, List.map_append, List.map_cons, List.map_nil,
      List.sum_append, List.sum_cons, List.sum_nil]
    rw [hsum]
    ring
  · intro row hrow
    simp only [apply_payment, List.getLast?_concat, Option.some_inj] at hrow
    subst hrow
    exact ⟨rfl, rfl⟩

theorem runPayments_inv (reqs : List (Nat × MarkPaidRequest)) (b b2 : Bill)
    (h : runPayments reqs b = Except.ok b2) (hb : LedgerInv b) : LedgerInv b2 := by
  induction reqs generalizing b with
  | nil =>
    simp only [runPayments, List.foldlM_nil] at h
    cases h
    exact hb
  | cons p reqs ih =>
    rw [runPayments, List.foldlM_cons] at h
    cases hr : mark_paid p.1 p.2 b with
    | error e =>
      rw [hr] at h
      exact Except.noConfusion h
    | ok b1 =>
      rw [hr] at h
      exact ih b1 h (ledger_inv_step p.1 p.2 b b1 hr hb)

/-- C1: starting from a bill with an empty ledger and nothing paid, any
sequence of successful `mark_paid` calls executed sequentially yields
`BillPayment` rows numbered exactly `1, 2, ..., n` with no gaps or repeats,
whose amounts sum to the bill's current `amount_paid`, and whose last row's
`total_paid_after`/`balance_after` equal the bill's current
`amount_paid`/`balance`. -/
theorem c1_payment_ledger (reqs : List (Nat × MarkPaidRequest)) (b0 b : Bill)
    (h0p : b0.payments = []) (h0a : b0.amount_paid = 0)
    (h : runPayments reqs b0 = Except.ok b) :
    b.payments.map (fun r => r.payment_number) = List.range' 1 b.payments.length ∧
    (b.payments.map (fun r => r.amount)).sum = b.amount_paid ∧
    ∀ row, b.payments.getLast? = some row →
      row.total_paid_after = b.amount_paid ∧ row.balance_after = b.balance :=
  runPayments_inv reqs b0 b h
    ⟨by simp [h0p], by simp [h0p, h0a],
     by intro row hrow; rw [h0p] at hrow; cases hrow⟩

theorem c1_payment_ledger_witness :
    ∃ b, runPayments [(7, reqPay 40000), (7, reqPay 60000)] billW = Except.ok b ∧
      (b.payments.map (fun r => r.payment_number) = List.range' 1 b.payments.length ∧
      (b.payments.map (fun r => r.amount)).sum = b.amount_paid ∧
      ∀ row, b.payments.getLast? = some row →
        row.total_paid_after = b.amount_paid ∧ row.balance_after = b.balance) := by
  have hc1 : ¬ (BillStatus.GENERATED = BillStatus.CANCELLED) := by decide
  have hc2 : ¬ (BillStatus.GENERATED = BillStatus.PAID) := by decide
  have s1 : mark_paid 7 (reqPay 40000) billW = Except.ok billW1 := by
    norm_num [mark_paid, reqPay, billW, billW1, parse_payment_mode, apply_payment]
    rw [if_neg hc1, if_neg hc2]
  have s2 : mark_paid 7 (reqPay 60000) billW1 = Except.ok billW2 := by
    norm_num [mark_paid, reqPay, billW, billW1, billW2, parse_payment_mode, apply_payment]
    rw [if_neg hc1, if_neg hc2]
  have h : runPayments [(7, reqPay 40000), (7, reqPay 60000)] billW = Except.ok billW2 := by
    have e1 : runPayments [(7, reqPay 40000), (7, reqPay 60000)] billW
        = runPayments [(7, reqPay 60000)] billW1 := by
      rw [runPayments, List.foldlM_cons, s1]; rfl
    have e2 : runPayments [(7, reqPay 60000)] billW1 = Except.ok billW2 := by
      rw [runPayments, List.foldlM_cons, s2]; rfl
    rw [e1, e2]
  exact ⟨billW2, h, c1_payment_ledger _ _ _ rfl rfl h⟩

end Erp

namespace Erp

/-- C10: `mark_as_purchased` on an item whose `is_received` is already true
changes nothing: on a cancelled PO it raises (no mutation), otherwise it
returns with the state unchanged — so repeated receipt calls never
double-count stock. -/
theorem c10_mark_purchased_idempotent (i : Nat) (s : POState)
    (item : PurchaseOrderItem) (hget : s.po.items.get? i = some item)
    (hrec : item.is_received = true) :
    mark_as_purchased i s =
      if s.po.status = POStatus.CANCELLED then Except.error POError.cancelled_po
      else Except.ok s := by
  unfold mark_as_purchased
  rw [hget]
  by_cases hc : s.po.status = POStatus.CANCELLED
  · simp [hc]
  · simp [hc, hrec]

theorem c10_mark_purchased_idempotent_witness :
    mark_as_purchased 0 poStateW = Except.ok poStateW := by
  rw [c10_mark_purchased_idempotent 0 poStateW
    { product := 1, quantity := 5, is_received := true } rfl rfl]
  exact if_neg (by decide)

theorem sum_pending_eq_zero_iff (l : List WorkOrderItem)
    (h : ∀ it ∈ l, 0 ≤ it.pending_quantity) :
    (l.map (fun it => it.pending_quantity)).sum = 0 ↔
      ∀ it ∈ l, it.pending_quantity = 0 := by
  induction l with
  | nil => simp
  | cons it l ih =>
    have hit : 0 ≤ it.pending_quantity := h it (List.mem_cons_self it l)
    have hrest : ∀ x ∈ l, 0 ≤ x.pending_quantity :=
      fun x hx => h x (List.mem_cons_of_mem it hx)
    have hsum : 0 ≤ (l.map (fun x => x.pending_quantity)).sum :=
      List.sum_nonneg (by intro q hq; obtain ⟨x, hx, rfl⟩ := List.mem_map.mp hq; exact hrest x hx)
    simp only [List.map_cons, List.sum_cons, List.mem_cons]
    constructor
    · intro hz
      obtain ⟨h1, h2⟩ := (add_eq_zero_iff_of_nonneg hit hsum).mp hz
      exact fun x hx => hx.elim (fun he => he ▸ h1) (fun hm => (ih hrest).mp h2 x hm)
    · intro hall
      rw [hall it (Or.inl rfl), (ih hrest).mpr (fun x hx => hall x (Or.inr hx)), add_zero]

/-- C8 counterexample: `WorkOrder.update_status`, unlike
`PurchaseOrder.update_status`, has no CANCELLED guard — recomputing the
status of a CANCELLED work order with one undelivered item overwrites the
status with ACTIVE. -/
theorem c8_counterexample :
    woC.status = WOStatus.CANCELLED ∧
    (WorkOrder.update_status [itemC] woC).status = WOStatus.ACTIVE ∧
    WOStatus.ACTIVE ≠ WOStatus.CANCELLED := by
  refine ⟨rfl, ?_, by decide⟩
  have h5 : ¬ itemC.pending_quantity = 0 := by decide
  have hd : ¬ (0 : ℚ) < itemC.delivered_quantity := by decide
  simp [WorkOrder.update_status, WorkOrder.save, h5, hd]

/-- C8 amended: for a nonempty item list with non-negative pending
quantities, `WorkOrder.update_status` is a pure function of the items — all
pending zero gives COMPLETED, otherwise some delivery gives
PARTIALLY_DELIVERED and no delivery gives ACTIVE — regardless of the prior
status, including CANCELLED (which it overwrites; only
`PurchaseOrder.update_status` preserves CANCELLED).  With no items the
work-order status is left unchanged. -/
theorem c8_status_recompute_amended :
    (∀ (wo : WorkOrder) (items : List WorkOrderItem), items ≠ [] →
      (∀ it ∈ items, 0 ≤ it.pending_quantity) →
      (((∀ it ∈ items, it.pending_quantity = 0) →
          (WorkOrder.update_status items wo).status = WOStatus.COMPLETED) ∧
       ((∃ it ∈ items, it.pending_quantity ≠ 0) →
          (∃ it ∈ items, 0 < it.delivered_quantity) →
          (WorkOrder.update_status items wo).status = WOStatus.PARTIALLY_DELIVERED) ∧
       ((∃ it ∈ items, it.pending_quantity ≠ 0) →
          (∀ it ∈ items, ¬ 0 < it.delivered_quantity) →
          (WorkOrder.update_status items wo).status = WOStatus.ACTIVE))) ∧
    (∀ wo : WorkOrder, WorkOrder.update_status [] wo = wo) ∧
    (∀ po : PurchaseOrder, po.status = POStatus.CANCELLED →
      PurchaseOrder.update_status po = po) := by
  refine ⟨?_, ?_, ?_⟩
  · intro wo items hne hnn
    have hemp : ¬ items.isEmpty := by
      cases items with
      | nil => exact absurd rfl hne
      | cons a l => simp [List.isEmpty]
    refine ⟨?_, ?_, ?_⟩
    · intro hall
      have hz : (items.map (fun it => it.pending_quantity)).sum = 0 :=
        (sum_pending_eq_zero_iff items hnn).mpr hall
      simp [WorkOrder.update_status, hemp, hz, WorkOrder.save]
    · rintro ⟨itp, hitp, hpnz⟩ ⟨itd, hitd, hdpos⟩
      have hnz : ¬ (items.map (fun it => it.pending_quantity)).sum = 0 :=
        fun hz => hpnz ((sum_pending_eq_zero_iff items hnn).mp hz itp hitp)
      have hany : items.any (fun it => decide (0 < it.delivered_quantity)) = true := by
        simp only [List.any_eq_true, decide_eq_true_eq]
        exact ⟨itd, hitd, hdpos⟩
      simp [WorkOrder.update_status, hemp, hnz, hany, WorkOrder.save]
    · rintro ⟨itp, hitp, hpnz⟩ hnone
      have hnz : ¬ (items.map (fun it => it.pending_quantity)).sum = 0 :=
        fun hz => hpnz ((sum_pending_eq_zero_iff items hnn).mp hz itp hitp)
      have hany : ¬ (items.any (fun it => decide (0 < it.delivered_quantity)) = true) := by
        simp only [List.any_eq_true, decide_eq_true_eq]
        rintro ⟨itd, hitd, hdpos⟩
        exact hnone itd hitd hdpos
      simp [WorkOrder.update_status, hemp, hnz, hany, WorkOrder.save]
  · intro wo
    simp [WorkOrder.update_status]
  · intro po hc
    simp [PurchaseOrder.update_status, hc]

theorem c8_status_recompute_amended_witness :
    (WorkOrder.update_status [itemC] woC).status = WOStatus.ACTIVE :=
  (c8_status_recompute_amended.1 woC [itemC] (by simp)
      (by intro it hit; rw [List.mem_singleton.mp hit]; decide)).2.2
    ⟨itemC, List.mem_singleton.mpr rfl, by decide⟩
    (by intro it hit; rw [List.mem_singleton.mp hit]; decide)

end Erp

namespace Erp

theorem itemErrorCond_mono (e : BillCreateError) (s : ErpState) (inp : BillItemInput)
    (l : List BillItemInput) (h : itemErrorCond e s l) : itemErrorCond e s (inp :: l) := by
  cases e with
  | item_not_found i =>
    obtain ⟨⟨x, hx, hxi⟩, hn⟩ := h
    exact ⟨⟨x, List.mem_cons_of_mem _ hx, hxi⟩, hn⟩
  | exceeds_pending i =>
    obtain ⟨x, hx, rest⟩ := h
    exact ⟨x, List.mem_cons_of_mem _ hx, rest⟩
  | insufficient_stock i =>
    obtain ⟨x, hx, rest⟩ := h
    exact ⟨x, List.mem_cons_of_mem _ hx, rest⟩
  | work_order_not_found => exact h.elim
  | work_order_completed => exact h.elim
  | no_items => exact h.elim

theorem validateItemList_error_inv (s : ErpState) (l : List BillItemInput)
    (e : BillCreateError) (h : validateItemList s l = Except.error e) :
    itemErrorCond e s l := by
  induction l with
  | nil => simp [validateItemList] at h
  | cons inp rest ih =>
    unfold validateItemList at h
    cases hL : lookup s.work_order_items inp.work_order_item with
    | none =>
      rw [hL] at h
      cases h
      exact ⟨⟨inp, List.mem_cons_self inp rest, rfl⟩, hL⟩
    | some it =>
      rw [hL] at h
      by_cases hp : it.pending_quantity < inp.delivered_quantity
      · simp only [if_pos hp] at h
        cases h
        exact ⟨inp, List.mem_cons_self inp rest, rfl, it, hL, hp⟩
      · simp only [if_neg hp] at h
        cases hprod : it.product with
        | some pid =>
          rw [hprod] at h
          by_cases hs : stockOf s pid < inp.delivered_quantity
          · simp only [if_pos hs] at h
            cases h
            exact ⟨inp, List.mem_cons_self inp rest, rfl, it, pid, hL, hprod, hs⟩
          · simp only [if_neg hs] at h
            exact itemErrorCond_mono e s inp rest (ih h)
        | none =>
          rw [hprod] at h
          exact itemErrorCond_mono e s inp rest (ih h)

theorem itemErrorCond_to_violation (e : BillCreateError) (s : ErpState)
    (l : List BillItemInput) (h : itemErrorCond e s l) :
    ∃ inp ∈ l, itemViolation s inp := by
  cases e with
  | item_not_found i =>
    obtain ⟨⟨inp, hmem, hi⟩, hn⟩ := h
    exact ⟨inp, hmem, Or.inl (hi ▸ hn)⟩
  | exceeds_pending i =>
    obtain ⟨inp, hmem, hi, it, hl, hp⟩ := h
    exact ⟨inp, hmem, Or.inr ⟨it, hi ▸ hl, Or.inl hp⟩⟩
  | insufficient_stock i =>
    obtain ⟨inp, hmem, hi, it, pid, hl, hprod, hs⟩ := h
    exact ⟨inp, hmem, Or.inr ⟨it, hi ▸ hl, Or.inr ⟨pid, hprod, hs⟩⟩⟩
  | work_order_not_found => exact h.elim
  | work_order_completed => exact h.elim
  | no_items => exact h.elim

theorem itemErrorCond_to_billCond (e : BillCreateError) (s : ErpState)
    (req : BillCreateRequest) (h : itemErrorCond e s req.items) :
    billCreateErrorCond e s req := by
  cases e with
  | item_not_found i => exact h
  | exceeds_pending i => exact h
  | insufficient_stock i => exact h
  | work_order_not_found => exact h.elim
  | work_order_completed => exact h.elim
  | no_items => exact h.elim

theorem validateItemList_ok_inv (s : ErpState) (l : List BillItemInput)
    (h : validateItemList s l = Except.ok ()) :
    ∀ inp ∈ l, ¬ itemViolation s inp := by
  induction l with
  | nil => simp
  | cons inp rest ih =>
    intro x hx
    unfold validateItemList at h
    cases hL : lookup s.work_order_items inp.work_order_item with
    | none => rw [hL] at h; cases h
    | some it =>
      rw [hL] at h
      by_cases hp : it.pending_quantity < inp.delivered_quantity
      · simp only [if_pos hp] at h
        cases h
      · simp only [if_neg hp] at h
        cases hprod : it.product with
        | some pid =>
          rw [hprod] at h
          by_cases hs : stockOf s pid < inp.delivered_quantity
          · simp only [if_pos hs] at h
            cases h
          · simp only [if_neg hs] at h
            rcases List.mem_cons.mp hx with rfl | hxr
            · rintro (hn | ⟨it2, hl2, hbad⟩)
              · rw [hL] at hn; cases hn
              · rw [hL, Option.some_inj] at hl2
                subst hl2
                rcases hbad with hb | ⟨pid2, hp2, hs2⟩
                · exact hp hb
                · rw [hprod, Option.some_inj] at hp2
                  subst hp2
                  exact hs hs2
            · exact ih h x hxr
        | none =>
          rw [hprod] at h
          rcases List.mem_cons.mp hx with rfl | hxr
          · rintro (hn | ⟨it2, hl2, hbad⟩)
            · rw [hL] at hn; cases hn
            · rw [hL, Option.some_inj] at hl2
              subst hl2
              rcases hbad with hb | ⟨pid2, hp2, hs2⟩
              · exact hp hb
              · rw [hprod] at hp2; cases hp2
          · exact ih h x hxr

theorem validateItemList_error_of (s : ErpState) (l : List BillItemInput)
    (h : ∃ inp ∈ l, itemViolation s inp) :
    ∃ e, validateItemList s l = Except.error e := by
  cases hv : validateItemList s l with
  | error e => exact ⟨e, rfl⟩
  | ok u =>
    cases u
    obtain ⟨inp, hmem, hviol⟩ := h
    exact absurd hviol (validateItemList_ok_inv s l hv inp hmem)

/-- C5: bill creation rejects exactly when some precondition fails — the
work order does not exist or is COMPLETED, the item list is empty, a
referenced work-order item does not exist, a delivered quantity exceeds the
item's pending quantity, or (for product-linked items) exceeds the product's
current stock — and each reported rejection kind truthfully names the
violated precondition, so the caller can distinguish the failure kinds.
Validation runs before `create`, so a rejection creates no Bill or BillItem
row and changes no WorkOrderItem, Product or WorkOrder field (the
embedding's error branch carries no state). -/
theorem c5_create_guards (s : ErpState) (req : BillCreateRequest) :
    (createViolation s req ↔ ∃ e, createBill req s = Except.error e) ∧
    (∀ e, createBill req s = Except.error e → billCreateErrorCond e s req) := by
  cases hwo : lookup s.work_orders req.work_order with
  | none =>
    have hc : createBill req s = Except.error BillCreateError.work_order_not_found := by
      simp [createBill, validate_work_order, hwo]
    refine ⟨⟨fun _ => ⟨_, hc⟩, fun _ => Or.inl hwo⟩, ?_⟩
    intro e he
    rw [hc] at he
    cases he
    exact hwo
  | some wo =>
    by_cases hcomp : wo.status = WOStatus.COMPLETED
    · have hc : createBill req s = Except.error BillCreateError.work_order_completed := by
        simp [createBill, validate_work_order, hwo, hcomp]
      refine ⟨⟨fun _ => ⟨_, hc⟩, fun _ => Or.inr (Or.inl ⟨wo, hwo, hcomp⟩)⟩, ?_⟩
      intro e he
      rw [hc] at he
      cases he
      exact ⟨wo, hwo, hcomp⟩
    · have hval : validate_work_order s req.work_order = Except.ok wo := by
        simp [validate_work_order, hwo, hcomp]
      by_cases hemp : req.items = []
      · have hc : createBill req s = Except.error BillCreateError.no_items := by
          simp [createBill, hval, validate_items, hemp]
        refine ⟨⟨fun _ => ⟨_, hc⟩, fun _ => Or.inr (Or.inr (Or.inl hemp))⟩, ?_⟩
        intro e he
        rw [hc] at he
        cases he
        exact hemp
      · cases hv : validateItemList s req.items with
        | error e0 =>
          have hc : createBill req s = Except.error e0 := by
            simp [createBill, hval, validate_items, hemp, hv]
          have hcond := validateItemList_error_inv s req.items e0 hv
          refine ⟨⟨fun _ => ⟨e0, hc⟩, fun _ =>
            Or.inr (Or.inr (Or.inr (itemErrorCond_to_violation e0 s req.items hcond)))⟩, ?_⟩
          intro e he
          rw [hc] at he
          cases he
          exact itemErrorCond_to_billCond e0 s req hcond
        | ok u =>
          cases u
          have hok : createBill req s = Except.ok (createApply req wo s) := by
            simp [createBill, hval, validate_items, hemp, hv]
          constructor
          · constructor
            · rintro (hx | ⟨wo2, hlk, hcomp2⟩ | hx | ⟨inp, hmem, hviol⟩)
              · rw [hwo] at hx; cases hx
              · rw [hwo] at hlk
                injection hlk with hwoe
                subst hwoe
                exact absurd hcomp2 hcomp
              · exact absurd hx hemp
              · exact absurd hviol (validateItemList_ok_inv s req.items hv inp hmem)
            · rintro ⟨e, he⟩
              rw [hok] at he
              cases he
          · intro e he
            rw [hok] at he
            cases he

end Erp

namespace Erp

theorem c5_create_guards_witness :
    ∃ e, createBill reqC stC = Except.error e :=
  (c5_create_guards stC reqC).1.mp
    (Or.inr (Or.inr (Or.inr ⟨{ work_order_item := 10, delivered_quantity := 10 },
      by decide,
      Or.inr ⟨itemS, rfl, Or.inr ⟨1, rfl, by decide⟩⟩⟩)))

/-- C9: scenario A end to end — one item with `ordered_quantity = 100`,
`rate = 10`, zero taxes, zero advance, stock 100; billing 40 units succeeds
and yields `subtotal = total_amount = net_payable = balance = 400`,
`advance_deducted = 0`, status GENERATED; the work-order item ends with 40
delivered / 60 pending, the product with 60 in stock, and the work order
becomes PARTIALLY_DELIVERED. -/
theorem c9_scenario_a :
    createBill reqA stA = Except.ok sA2 ∧
    sA2.bills = [billA2] ∧
    billA2.subtotal = 400 ∧ billA2.total_amount = 400 ∧
    billA2.advance_deducted = 0 ∧ billA2.net_payable = 400 ∧
    billA2.balance = 400 ∧ billA2.status = BillStatus.GENERATED ∧
    lookup sA2.work_order_items 10 = some itemA2 ∧
    itemA2.delivered_quantity = 40 ∧ itemA2.pending_quantity = 60 ∧
    stockOf sA2 1 = 60 ∧
    lookup sA2.work_orders 5 = some woA2 ∧
    woA2.status = WOStatus.PARTIALLY_DELIVERED := by
  refine ⟨?_, rfl, rfl, rfl, rfl, rfl, rfl, rfl, rfl, rfl, rfl, rfl, rfl, rfl⟩
  have h1 : ¬ (WOStatus.ACTIVE = WOStatus.COMPLETED) := by decide
  norm_num [createBill, createApply, validate_work_order, validate_items, validateItemList,
    stA, reqA, woActive, itemA, lookup, stockOf, mkBillItems, Bill.new,
    Bill.calculate_totals, BillItem.snapshot, Bill.update_work_order_advance,
    Bill.deduct_stock, billItemsFold, updateKey, WorkOrderItem.save,
    WorkOrder.save, WorkOrder.update_status, itemsOf,
    List.filterMap_cons, List.filterMap_nil, h1,
    sA2, itemA2, woA2, biA, billA2]

end Erp

namespace Erp

theorem billItemsFold_fst (f : BillItem → Qty → Qty)
    (g : BillItem → WorkOrderItem → WorkOrderItem) (bis : List BillItem)
    (acc : List (Nat × Qty) × List (Nat × WorkOrderItem)) (k : Nat) :
    lookup (billItemsFold f g bis acc).1 k =
      (lookup acc.1 k).map
        (fun v => (bis.filter (prodTouches k)).foldl (fun x bi => f bi x) v) := by
  induction bis generalizing acc with
  | nil => simp [billItemsFold]
  | cons bi rest ih =>
    cases hbp : bi.product with
    | none =>
      have ht : prodTouches k bi = false := by simp [prodTouches, hbp]
      simp only [billItemsFold, hbp]
      rw [ih]
      simp [List.filter_cons, ht]
    | some pid =>
      simp only [billItemsFold, hbp]
      rw [ih]
      by_cases hk : pid = k
      · subst hk
        have ht : prodTouches pid bi = true := by simp [prodTouches, hbp]
        simp only [lookup_updateKey, if_pos rfl, List.filter_cons, ht, if_true,
          List.foldl_cons, Option.map_map]
        rfl
      · have ht : prodTouches k bi = false := by simp [prodTouches, hbp, hk]
        have hk2 : ¬ k = pid := fun h => hk h.symm
        simp only [lookup_updateKey, if_neg hk2, List.filter_cons, ht]
        simp

theorem billItemsFold_snd (f : BillItem → Qty → Qty)
    (g : BillItem → WorkOrderItem → WorkOrderItem) (bis : List BillItem)
    (acc : List (Nat × Qty) × List (Nat × WorkOrderItem)) (k : Nat) :
    lookup (billItemsFold f g bis acc).2 k =
      (lookup acc.2 k).map
        (fun it => (bis.filter (itemTouches k)).foldl (fun x bi => g bi x) it) := by
  induction bis generalizing acc with
  | nil => simp [billItemsFold]
  | cons bi rest ih =>
    cases hbp : bi.product with
    | none =>
      have ht : itemTouches k bi = false := by simp [itemTouches, hbp]
      simp only [billItemsFold, hbp]
      rw [ih]
      simp [List.filter_cons, ht]
    | some pid =>
      simp only [billItemsFold, hbp]
      rw [ih]
      by_cases hk : bi.work_order_item = k
      · subst hk
        have ht : itemTouches bi.work_order_item bi = true := by
          simp [itemTouches, hbp]
        simp only [lookup_updateKey, if_pos rfl, List.filter_cons, ht, if_true,
          List.foldl_cons, Option.map_map]
        rfl
      · have ht : itemTouches k bi = false := by simp [itemTouches, hbp, hk]
        have hk2 : ¬ k = bi.work_order_item := fun h => hk h.symm
        simp only [lookup_updateKey, if_neg hk2, List.filter_cons, ht]
        simp

theorem addDeliver_comp (d e : Qty) (it : WorkOrderItem) :
    addDeliver e (addDeliver d it) = addDeliver (d + e) it := by
  simp only [addDeliver, WorkOrderItem.save, WorkOrderItem.mk.injEq, true_and,
    and_true]
  exact ⟨by ring, by ring⟩

theorem foldl_addDeliver (l : List BillItem) (it : WorkOrderItem) :
    l.foldl (fun x bi =>
        WorkOrderItem.save
          { x with delivered_quantity := x.delivered_quantity + bi.delivered_quantity }) it =
      if l = [] then it
      else addDeliver ((l.map (fun bi => bi.delivered_quantity)).sum) it := by
  induction l generalizing it with
  | nil => simp
  | cons bi rest ih =>
    simp only [List.foldl_cons]
    rw [ih]
    by_cases hr : rest = []
    · subst hr
      simp [addDeliver]
    · simp only [if_neg hr, List.cons_ne_nil, if_neg (List.cons_ne_nil bi rest)]
      show addDeliver _ (addDeliver bi.delivered_quantity it) = _
      rw [addDeliver_comp]
      simp

theorem foldl_subDeliver (l : List BillItem) (it : WorkOrderItem) :
    l.foldl (fun x bi =>
        WorkOrderItem.save
          { x with delivered_quantity := x.delivered_quantity - bi.delivered_quantity }) it =
      if l = [] then it
      else addDeliver (-((l.map (fun bi => bi.delivered_quantity)).sum)) it := by
  induction l generalizing it with
  | nil => simp
  | cons bi rest ih =>
    simp only [List.foldl_cons]
    rw [ih]
    have hstep : WorkOrderItem.save
        { it with delivered_quantity := it.delivered_quantity - bi.delivered_quantity } =
        addDeliver (-bi.delivered_quantity) it := by
      simp only [addDeliver, WorkOrderItem.save, WorkOrderItem.mk.injEq, true_and,
        and_true]
      exact ⟨by ring, by ring⟩
    by_cases hr : rest = []
    · subst hr
      simp [hstep]
    · simp only [if_neg hr, if_neg (List.cons_ne_nil bi rest), hstep]
      rw [addDeliver_comp]
      congr 1
      simp
      ring

theorem foldl_sub_stock (l : List BillItem) (v : Qty) :
    l.foldl (fun x bi => x - bi.delivered_quantity) v =
      v - (l.map (fun bi => bi.delivered_quantity)).sum := by
  induction l generalizing v with
  | nil => simp
  | cons bi rest ih =>
    simp only [List.foldl_cons, List.map_cons, List.sum_cons]
    rw [ih]
    ring

theorem foldl_add_stock (l : List BillItem) (v : Qty) :
    l.foldl (fun x bi => x + bi.delivered_quantity) v =
      v + (l.map (fun bi => bi.delivered_quantity)).sum := by
  induction l generalizing v with
  | nil => simp
  | cons bi rest ih =>
    simp only [List.foldl_cons, List.map_cons, List.sum_cons]
    rw [ih]
    ring

theorem lookup_deduct_fst (b : Bill) (P : List (Nat × Qty))
    (I : List (Nat × WorkOrderItem)) (k : Nat) :
    lookup (Bill.deduct_stock b (P, I)).1 k =
      (lookup P k).map (fun v => v - stockContribution k b.items) := by
  show lookup (billItemsFold _ _ b.items (P, I)).1 k = _
  rw [billItemsFold_fst]
  cases lookup P k with
  | none => rfl
  | some v => simp [foldl_sub_stock, stockContribution]

theorem lookup_restore_fst (b : Bill) (P : List (Nat × Qty))
    (I : List (Nat × WorkOrderItem)) (k : Nat) :
    lookup (Bill.restore_stock_items b (P, I)).1 k =
      (lookup P k).map (fun v => v + stockContribution k b.items) := by
  show lookup (billItemsFold _ _ b.items (P, I)).1 k = _
  rw [billItemsFold_fst]
  cases lookup P k with
  | none => rfl
  | some v => simp [foldl_add_stock, stockContribution]

theorem lookup_deduct_snd (b : Bill) (P : List (Nat × Qty))
    (I : List (Nat × WorkOrderItem)) (k : Nat) :
    lookup (Bill.deduct_stock b (P, I)).2 k =
      (lookup I k).map (fun it =>
        if b.items.filter (itemTouches k) = [] then it
        else addDeliver (deliveredContribution k b.items) it) := by
  show lookup (billItemsFold _ _ b.items (P, I)).2 k = _
  rw [billItemsFold_snd]
  cases lookup I k with
  | none => rfl
  | some it => simp [foldl_addDeliver, deliveredContribution]

theorem lookup_restore_snd (b : Bill) (P : List (Nat × Qty))
    (I : List (Nat × WorkOrderItem)) (k : Nat) :
    lookup (Bill.restore_stock_items b (P, I)).2 k =
      (lookup I k).map (fun it =>
        if b.items.filter (itemTouches k) = [] then it
        else addDeliver (-(deliveredContribution k b.items)) it) := by
  show lookup (billItemsFold _ _ b.items (P, I)).2 k = _
  rw [billItemsFold_snd]
  cases lookup I k with
  | none => rfl
  | some it => simp [foldl_subDeliver, deliveredContribution]

end Erp

namespace Erp

theorem lookup_updateKey_ne {α : Type} (l : List (Nat × α)) (k j : Nat) (f : α → α)
    (h : ¬ j = k) : lookup (updateKey l k f) j = lookup l j := by
  rw [lookup_updateKey, if_neg h]

theorem lookup_updateKey_const {α : Type} (l : List (Nat × α)) (k j : Nat) (w : α)
    (v : α) (h : lookup (updateKey l k (fun _ => w)) j = some v) :
    (j = k ∧ (∃ u, lookup l j = some u) ∧ v = w) ∨ (¬ j = k ∧ lookup l j = some v) := by
  rw [lookup_updateKey] at h
  by_cases hj : j = k
  · rw [if_pos hj] at h
    cases hu : lookup l j with
    | none => rw [hu] at h; cases h
    | some u =>
      rw [hu] at h
      simp only [Option.map_some', Option.some_inj] at h
      exact Or.inl ⟨hj, ⟨u, rfl⟩, h.symm⟩
  · rw [if_neg hj] at h
    exact Or.inr ⟨hj, h⟩

theorem update_status_fields (items : List WorkOrderItem) (wo : WorkOrder) :
    (WorkOrder.update_status items wo).advance_deducted = wo.advance_deducted ∧
    (WorkOrder.update_status items wo).advance_amount = wo.advance_amount ∧
    (WorkOrder.update_status items wo).total_delivered_value = wo.total_delivered_value := by
  unfold WorkOrder.update_status WorkOrder.save
  split <;> exact ⟨rfl, rfl, rfl⟩

theorem update_status_remaining (items : List WorkOrderItem) (wo : WorkOrder)
    (h : wo.advance_remaining = wo.advance_amount - wo.advance_deducted) :
    (WorkOrder.update_status items wo).advance_remaining =
      wo.advance_amount - wo.advance_deducted := by
  unfold WorkOrder.update_status WorkOrder.save
  split
  · exact h
  · simp

theorem createBill_ok_inv (req : BillCreateRequest) (s s1 : ErpState)
    (h : createBill req s = Except.ok s1) :
    ∃ wo, lookup s.work_orders req.work_order = some wo ∧
      ¬ wo.status = WOStatus.COMPLETED ∧ ¬ req.items = [] ∧
      validateItemList s req.items = Except.ok () ∧
      s1 = createApply req wo s := by
  unfold createBill validate_work_order validate_items at h
  cases hwo : lookup s.work_orders req.work_order with
  | none => rw [hwo] at h; cases h
  | some wo =>
    rw [hwo] at h
    by_cases hcomp : wo.status = WOStatus.COMPLETED
    · simp only [if_pos hcomp] at h
      cases h
    · simp only [if_neg hcomp] at h
      by_cases hemp : req.items = []
      · simp only [if_pos hemp] at h
        cases h
      · simp only [if_neg hemp] at h
        cases hv : validateItemList s req.items with
        | error e => rw [hv] at h; cases h
        | ok u =>
          cases u
          rw [hv] at h
          cases h
          exact ⟨wo, rfl, hcomp, hemp, rfl, rfl⟩

theorem cancelBill_ok_inv (i : Nat) (s s2 : ErpState)
    (h : cancelBill i s = Except.ok s2) :
    ∃ bill, s.bills.get? i = some bill ∧
      ¬ bill.status = BillStatus.CANCELLED ∧ ¬ bill.status = BillStatus.PAID ∧
      s2 = cancelApply i bill s := by
  unfold cancelBill at h
  cases hb : s.bills.get? i with
  | none => rw [hb] at h; cases h
  | some bill =>
    rw [hb] at h
    by_cases hc1 : bill.status = BillStatus.CANCELLED
    · simp only [if_pos hc1] at h
      cases h
    · simp only [if_neg hc1] at h
      by_cases hc2 : bill.status = BillStatus.PAID
      · simp only [if_pos hc2] at h
        cases h
      · simp only [if_neg hc2] at h
        cases h
        exact ⟨bill, rfl, hc1, hc2, rfl⟩

end Erp

namespace Erp

/-- C2: creating a bill against a work order and then cancelling that same
bill (still GENERATED, hence neither PAID nor CANCELLED) restores every
product's `current_stock`, every work-order item's `delivered_quantity` and
`pending_quantity`, and the work orders' `advance_deducted`,
`advance_remaining` and `total_delivered_value` to their exact
pre-bill-creation values, and marks the bill CANCELLED.  The two stated
hypotheses are the stored-field identities the data layer recomputes on
every save. -/
theorem c2_cancel_restores (s : ErpState) (req : BillCreateRequest) (s1 : ErpState)
    (hinv1 : ∀ p ∈ s.work_order_items,
      (p.2).pending_quantity = (p.2).ordered_quantity - (p.2).delivered_quantity)
    (hinv3 : ∀ p ∈ s.work_orders,
      (p.2).advance_remaining = (p.2).advance_amount - (p.2).advance_deducted)
    (hc : createBill req s = Except.ok s1) :
    ∃ s2, cancelBill s.bills.length s1 = Except.ok s2 ∧
      (∀ k, lookup s2.products k = lookup s.products k) ∧
      (∀ k it2, lookup s2.work_order_items k = some it2 →
        ∃ it, lookup s.work_order_items k = some it ∧
          it2.delivered_quantity = it.delivered_quantity ∧
          it2.pending_quantity = it.pending_quantity) ∧
      (∀ k wox, lookup s2.work_orders k = some wox →
        ∃ wo0, lookup s.work_orders k = some wo0 ∧
          wox.advance_deducted = wo0.advance_deducted ∧
          wox.advance_remaining = wo0.advance_remaining ∧
          wox.total_delivered_value = wo0.total_delivered_value) ∧
      (∃ bc, s2.bills.get? s.bills.length = some bc ∧
        bc.status = BillStatus.CANCELLED) := by
  obtain ⟨wo, hwo, hcomp, hemp, hval, hs1⟩ := createBill_ok_inv req s s1 hc
  subst hs1
  set B := Bill.calculate_totals wo (Bill.new req.work_order (mkBillItems s req.items))
    with hB
  have hget : (createApply req wo s).bills.get? s.bills.length = some B :=
    List.get?_concat_length s.bills B
  have hcan : cancelBill s.bills.length (createApply req wo s) =
      Except.ok (cancelApply s.bills.length B (createApply req wo s)) := by
    unfold cancelBill
    rw [hget]
    rfl
  refine ⟨_, hcan, ?_, ?_, ?_, ?_⟩
  · -- products restored pointwise
    intro k
    have hres : lookup (cancelApply s.bills.length B (createApply req wo s)).products k =
        (lookup (createApply req wo s).products k).map
          (fun v => v + stockContribution k B.items) :=
      lookup_restore_fst B (createApply req wo s).products
        (createApply req wo s).work_order_items k
    have hded : lookup (createApply req wo s).products k =
        (lookup s.products k).map (fun v => v - stockContribution k B.items) :=
      lookup_deduct_fst B s.products s.work_order_items k
    rw [hres, hded, Option.map_map]
    cases lookup s.products k with
    | none => rfl
    | some v =>
      simp only [Option.map_some', Function.comp, Option.some_inj]
      ring
  · -- work-order item quantities restored pointwise
    intro k it2 hit2
    have hres : lookup (cancelApply s.bills.length B (createApply req wo s)).work_order_items k =
        (lookup (createApply req wo s).work_order_items k).map
          (fun it => if B.items.filter (itemTouches k) = [] then it
            else addDeliver (-(deliveredContribution k B.items)) it) :=
      lookup_restore_snd B (createApply req wo s).products
        (createApply req wo s).work_order_items k
    have hded : lookup (createApply req wo s).work_order_items k =
        (lookup s.work_order_items k).map
          (fun it => if B.items.filter (itemTouches k) = [] then it
            else addDeliver (deliveredContribution k B.items) it) :=
      lookup_deduct_snd B s.products s.work_order_items k
    rw [hres, hded, Option.map_map] at hit2
    cases hl : lookup s.work_order_items k with
    | none => rw [hl] at hit2; cases hit2
    | some it =>
      rw [hl] at hit2
      simp only [Option.map_some', Function.comp, Option.some_inj] at hit2
      refine ⟨it, rfl, ?_⟩
      by_cases hfe : B.items.filter (itemTouches k) = []
      · rw [if_pos hfe, if_pos hfe] at hit2
        rw [← hit2]
        exact ⟨rfl, rfl⟩
      · rw [if_neg hfe, if_neg hfe, addDeliver_comp] at hit2
        have hz : deliveredContribution k B.items + -(deliveredContribution k B.items) = 0 := by
          ring
        rw [hz] at hit2
        rw [← hit2]
        have hpend := hinv1 (k, it) (lookup_mem s.work_order_items k it hl)
        constructor
        · show it.delivered_quantity + 0 = it.delivered_quantity
          ring
        · show it.ordered_quantity - (it.delivered_quantity + 0) = it.pending_quantity
          rw [hpend]
          ring
  · -- work-order advance pool restored pointwise
    intro k wox hk
    rcases lookup_updateKey_const (createApply req wo s).work_orders B.work_order k _ wox hk
      with ⟨hkw, -, hwox⟩ | ⟨hkw, hrest⟩
    · -- k is the billed work order
      have hkr : k = req.work_order := hkw
      subst hkr
      have hlk1 : lookup (createApply req wo s).work_orders B.work_order =
          some (WorkOrder.update_status
            (itemsOf (Bill.deduct_stock B (s.products, s.work_order_items)).2 req.work_order)
            (Bill.update_work_order_advance B wo)) := by
        show lookup (updateKey s.work_orders req.work_order _) req.work_order = _
        rw [lookup_updateKey, if_pos rfl, hwo]
        rfl
      refine ⟨wo, hwo, ?_⟩
      subst hwox
      rw [hlk1, Option.getD_some]
      obtain ⟨hd1, ha1, ht1⟩ := update_status_fields
        (itemsOf (Bill.deduct_stock B (s.products, s.work_order_items)).2 req.work_order)
        (Bill.update_work_order_advance B wo)
      obtain ⟨hd2, ha2, ht2⟩ := update_status_fields
        (itemsOf (Bill.restore_stock_items B
          ((createApply req wo s).products, (createApply req wo s).work_order_items)).2
          B.work_order)
        (WorkOrder.save
          { WorkOrder.update_status
              (itemsOf (Bill.deduct_stock B (s.products, s.work_order_items)).2 req.work_order)
              (Bill.update_work_order_advance B wo) with
            advance_deducted := (WorkOrder.update_status
              (itemsOf (Bill.deduct_stock B (s.products, s.work_order_items)).2 req.work_order)
              (Bill.update_work_order_advance B wo)).advance_deducted - B.advance_deducted
            total_delivered_value := (WorkOrder.update_status
              (itemsOf (Bill.deduct_stock B (s.products, s.work_order_items)).2 req.work_order)
              (Bill.update_work_order_advance B wo)).total_delivered_value - B.total_amount })
      refine ⟨?_, ?_, ?_⟩
      · rw [hd2]
        show (WorkOrder.update_status
            (itemsOf (Bill.deduct_stock B (s.products, s.work_order_items)).2 req.work_order)
            (Bill.update_work_order_advance B wo)).advance_deducted - B.advance_deducted
          = wo.advance_deducted
        rw [hd1]
        show wo.advance_deducted + B.advance_deducted - B.advance_deducted = wo.advance_deducted
        ring
      · rw [update_status_remaining _ _ rfl]
        show (WorkOrder.update_status
            (itemsOf (Bill.deduct_stock B (s.products, s.work_order_items)).2 req.work_order)
            (Bill.update_work_order_advance B wo)).advance_amount -
          ((WorkOrder.update_status
            (itemsOf (Bill.deduct_stock B (s.products, s.work_order_items)).2 req.work_order)
            (Bill.update_work_order_advance B wo)).advance_deducted - B.advance_deducted)
          = wo.advance_remaining
        rw [ha1, hd1]
        rw [hinv3 (req.work_order, wo) (lookup_mem s.work_orders req.work_order wo hwo)]
        show wo.advance_amount - (wo.advance_deducted + B.advance_deducted - B.advance_deducted)
          = wo.advance_amount - wo.advance_deducted
        ring
      · rw [ht2]
        show (WorkOrder.update_status
            (itemsOf (Bill.deduct_stock B (s.products, s.work_order_items)).2 req.work_order)
            (Bill.update_work_order_advance B wo)).total_delivered_value - B.total_amount
          = wo.total_delivered_value
        rw [ht1]
        show wo.total_delivered_value + B.total_amount - B.total_amount
          = wo.total_delivered_value
        ring
    · -- untouched work orders
      have hkr : ¬ k = req.work_order := hkw
      have h5 : lookup (createApply req wo s).work_orders k = lookup s.work_orders k :=
        lookup_updateKey_ne s.work_orders req.work_order k _ hkr
      rw [h5] at hrest
      exact ⟨wox, hrest, rfl, rfl, rfl⟩
  · -- the bill itself is CANCELLED
    refine ⟨{ B with status := BillStatus.CANCELLED }, ?_, rfl⟩
    show ((s.bills ++ [B]).set s.bills.length
      { B with status := BillStatus.CANCELLED }).get? s.bills.length = _
    rw [List.get?_set_eq, List.get?_concat_length]
    rfl

end Erp

namespace Erp

theorem c2_cancel_restores_witness :
    ∃ s2, cancelBill stA.bills.length sA2 = Except.ok s2 ∧
      (∀ k, lookup s2.products k = lookup stA.products k) ∧
      (∀ k it2, lookup s2.work_order_items k = some it2 →
        ∃ it, lookup stA.work_order_items k = some it ∧
          it2.delivered_quantity = it.delivered_quantity ∧
          it2.pending_quantity = it.pending_quantity) ∧
      (∀ k wox, lookup s2.work_orders k = some wox →
        ∃ wo0, lookup stA.work_orders k = some wo0 ∧
          wox.advance_deducted = wo0.advance_deducted ∧
          wox.advance_remaining = wo0.advance_remaining ∧
          wox.total_delivered_value = wo0.total_delivered_value) ∧
      (∃ bc, s2.bills.get? stA.bills.length = some bc ∧
        bc.status = BillStatus.CANCELLED) := by
  have hc : createBill reqA stA = Except.ok sA2 := by
    have h1 : ¬ (WOStatus.ACTIVE = WOStatus.COMPLETED) := by decide
    norm_num [createBill, createApply, validate_work_order, validate_items, validateItemList,
      stA, reqA, woActive, itemA, lookup, stockOf, mkBillItems, Bill.new,
      Bill.calculate_totals, BillItem.snapshot, Bill.update_work_order_advance,
      Bill.deduct_stock, billItemsFold, updateKey, WorkOrderItem.save,
      WorkOrder.save, WorkOrder.update_status, itemsOf,
      List.filterMap_cons, List.filterMap_nil, h1,
      sA2, itemA2, woA2, biA, billA2]
  exact c2_cancel_restores stA reqA sA2
    (by
      intro p hp
      rw [List.mem_singleton.mp hp]
      norm_num [itemA])
    (by
      intro p hp
      rw [List.mem_singleton.mp hp]
      norm_num [woActive])
    hc

end Erp

namespace Erp

theorem updateKey_eq_map {α : Type} (l : List (Nat × α)) (k : Nat) (f : α → α) :
    updateKey l k f = l.map (fun p => if p.1 = k then (p.1, f p.2) else p) := by
  induction l with
  | nil => rfl
  | cons p l ih => simp [updateKey, ih]

theorem updateKey_keys {α : Type} (l : List (Nat × α)) (k : Nat) (f : α → α) :
    (updateKey l k f).map Prod.fst = l.map Prod.fst := by
  rw [updateKey_eq_map, List.map_map]
  congr 1
  funext p
  by_cases hp : p.1 = k <;> simp [hp]

theorem lookup_isSome_of_mem {α : Type} (l : List (Nat × α)) (k : Nat) (v : α)
    (h : (k, v) ∈ l) : ∃ u, lookup l k = some u := by
  induction l with
  | nil => cases h
  | cons p l ih =>
    by_cases hp : p.1 = k
    · exact ⟨p.2, by simp [lookup, hp]⟩
    · rcases List.mem_cons.mp h with rfl | hm
      · exact absurd rfl hp
      · simpa [lookup, hp] using ih hm

theorem lookup_of_mem_nodup {α : Type} (l : List (Nat × α)) (k : Nat) (v : α)
    (hnd : (l.map Prod.fst).Nodup) (h : (k, v) ∈ l) : lookup l k = some v := by
  induction l with
  | nil => cases h
  | cons p l ih =>
    simp only [List.map_cons, List.nodup_cons] at hnd
    rcases List.mem_cons.mp h with rfl | hm
    · simp [lookup]
    · by_cases hp : p.1 = k
      · exfalso
        apply hnd.1
        rw [hp]
        exact List.mem_map.mpr ⟨(k, v), hm, rfl⟩
      · simpa [lookup, hp] using ih hnd.2 hm

theorem billItemsFold_snd_eq_map (f : BillItem → Qty → Qty)
    (g : BillItem → WorkOrderItem → WorkOrderItem) (bis : List BillItem)
    (acc : List (Nat × Qty) × List (Nat × WorkOrderItem)) :
    (billItemsFold f g bis acc).2 =
      acc.2.map (fun p =>
        (p.1, (bis.filter (itemTouches p.1)).foldl (fun x bi => g bi x) p.2)) := by
  induction bis generalizing acc with
  | nil => simp [billItemsFold]
  | cons bi rest ih =>
    cases hbp : bi.product with
    | none =>
      have ht : ∀ j : Nat, itemTouches j bi = false := fun j => by
        simp [itemTouches, hbp]
      simp only [billItemsFold, hbp]
      rw [ih]
      congr 1
      funext p
      simp [List.filter_cons, ht p.1]
    | some pid =>
      simp only [billItemsFold, hbp]
      rw [ih (updateKey acc.1 pid (f bi), updateKey acc.2 bi.work_order_item (g bi))]
      show (updateKey acc.2 bi.work_order_item (g bi)).map _ = _
      rw [updateKey_eq_map, List.map_map]
      congr 1
      funext p
      by_cases hk : p.1 = bi.work_order_item
      · have ht : itemTouches bi.work_order_item bi = true := by
          simp [itemTouches, hbp]
        simp [Function.comp, hk, List.filter_cons, ht, List.foldl_cons]
      · have ht : itemTouches p.1 bi = false := by
          simp [itemTouches, hbp]
          exact fun h => hk h.symm
        simp [Function.comp, if_neg hk, List.filter_cons, ht]

end Erp

namespace Erp

theorem billsAdvSum_cons (b : Bill) (l : List Bill) (k : Nat) :
    billsAdvSum (b :: l) k =
      (if b.work_order = k ∧ ¬ b.status = BillStatus.CANCELLED
        then b.advance_deducted else 0) + billsAdvSum l k := by
  unfold billsAdvSum
  rw [List.filter_cons]
  by_cases hb : b.work_order = k ∧ ¬ b.status = BillStatus.CANCELLED
  · simp [hb]
  · simp [hb]

theorem billsAdvSum_append (l : List Bill) (b : Bill) (k : Nat) :
    billsAdvSum (l ++ [b]) k =
      billsAdvSum l k +
      (if b.work_order = k ∧ ¬ b.status = BillStatus.CANCELLED
        then b.advance_deducted else 0) := by
  induction l with
  | nil =>
    rw [List.nil_append, billsAdvSum_cons]
    show _ = billsAdvSum [] k + _
    unfold billsAdvSum
    simp
  | cons x rest ih =>
    rw [List.cons_append, billsAdvSum_cons, billsAdvSum_cons, ih]
    ring

theorem billsAdvSum_set (l : List Bill) (i : Nat) (b b2 : Bill) (k : Nat)
    (h : l.get? i = some b) :
    billsAdvSum (l.set i b2) k =
      billsAdvSum l k -
        (if b.work_order = k ∧ ¬ b.status = BillStatus.CANCELLED
          then b.advance_deducted else 0) +
        (if b2.work_order = k ∧ ¬ b2.status = BillStatus.CANCELLED
          then b2.advance_deducted else 0) := by
  induction l generalizing i with
  | nil => cases h
  | cons x rest ih =>
    cases i with
    | zero =>
      rw [List.get?_cons_zero] at h
      cases h
      rw [List.set_cons_zero, billsAdvSum_cons, billsAdvSum_cons]
      ring
    | succ j =>
      rw [List.get?_cons_succ] at h
      rw [List.set_cons_succ, billsAdvSum_cons, billsAdvSum_cons, ih j h]
      ring

theorem billsDeliveredSum_cons (b : Bill) (l : List Bill) (k : Nat) :
    billsDeliveredSum (b :: l) k =
      (if ¬ b.status = BillStatus.CANCELLED
        then deliveredContribution k b.items else 0) + billsDeliveredSum l k := by
  unfold billsDeliveredSum
  rw [List.filter_cons]
  by_cases hb : ¬ b.status = BillStatus.CANCELLED
  · simp [hb]
  · simp [hb]

theorem billsDeliveredSum_append (l : List Bill) (b : Bill) (k : Nat) :
    billsDeliveredSum (l ++ [b]) k =
      billsDeliveredSum l k +
      (if ¬ b.status = BillStatus.CANCELLED
        then deliveredContribution k b.items else 0) := by
  induction l with
  | nil =>
    rw [List.nil_append, billsDeliveredSum_cons]
    show _ = billsDeliveredSum [] k + _
    unfold billsDeliveredSum
    simp
  | cons x rest ih =>
    rw [List.cons_append, billsDeliveredSum_cons, billsDeliveredSum_cons, ih]
    ring

theorem billsDeliveredSum_set (l : List Bill) (i : Nat) (b b2 : Bill) (k : Nat)
    (h : l.get? i = some b) :
    billsDeliveredSum (l.set i b2) k =
      billsDeliveredSum l k -
        (if ¬ b.status = BillStatus.CANCELLED
          then deliveredContribution k b.items else 0) +
        (if ¬ b2.status = BillStatus.CANCELLED
          then deliveredContribution k b2.items else 0) := by
  induction l generalizing i with
  | nil => cases h
  | cons x rest ih =>
    cases i with
    | zero =>
      rw [List.get?_cons_zero] at h
      cases h
      rw [List.set_cons_zero, billsDeliveredSum_cons, billsDeliveredSum_cons]
      ring
    | succ j =>
      rw [List.get?_cons_succ] at h
      rw [List.set_cons_succ, billsDeliveredSum_cons, billsDeliveredSum_cons, ih j h]
      ring

theorem deliveredContribution_nonneg (k : Nat) (bis : List BillItem)
    (h : ∀ bi ∈ bis, 0 ≤ bi.delivered_quantity) :
    0 ≤ deliveredContribution k bis := by
  apply List.sum_nonneg
  intro x hx
  obtain ⟨bi, hbi, rfl⟩ := List.mem_map.mp hx
  exact h bi (List.mem_of_mem_filter hbi)

theorem billsDeliveredSum_nonneg (bills : List Bill) (k : Nat)
    (h : ∀ b ∈ bills, ∀ bi ∈ b.items, 0 ≤ bi.delivered_quantity) :
    0 ≤ billsDeliveredSum bills k := by
  apply List.sum_nonneg
  intro x hx
  obtain ⟨b, hb, rfl⟩ := List.mem_map.mp hx
  exact deliveredContribution_nonneg k b.items (h b (List.mem_of_mem_filter hb))

theorem le_billsDeliveredSum (bills : List Bill) (i : Nat) (b : Bill) (k : Nat)
    (hget : bills.get? i = some b) (hbc : ¬ b.status = BillStatus.CANCELLED)
    (h : ∀ x ∈ bills, ∀ bi ∈ x.items, 0 ≤ bi.delivered_quantity) :
    deliveredContribution k b.items ≤ billsDeliveredSum bills k := by
  induction bills generalizing i with
  | nil => cases hget
  | cons x rest ih =>
    have hhead : ∀ bi ∈ x.items, 0 ≤ bi.delivered_quantity :=
      h x (List.mem_cons_self x rest)
    have hrest : ∀ y ∈ rest, ∀ bi ∈ y.items, 0 ≤ bi.delivered_quantity :=
      fun y hy => h y (List.mem_cons_of_mem x hy)
    rw [billsDeliveredSum_cons]
    cases i with
    | zero =>
      rw [List.get?_cons_zero] at hget
      cases hget
      rw [if_pos hbc]
      have := billsDeliveredSum_nonneg rest k hrest
      linarith
    | succ j =>
      rw [List.get?_cons_succ] at hget
      have hle := ih j hget hrest
      have hx : (0 : ℚ) ≤ if ¬ x.status = BillStatus.CANCELLED
          then deliveredContribution k x.items else 0 := by
        by_cases hs : ¬ x.status = BillStatus.CANCELLED
        · rw [if_pos hs]
          exact deliveredContribution_nonneg k x.items hhead
        · rw [if_neg hs]
      linarith

theorem mem_mkBillItems (s : ErpState) (l : List BillItemInput) (bi : BillItem)
    (h : bi ∈ mkBillItems s l) :
    ∃ inp ∈ l, ∃ it, lookup s.work_order_items inp.work_order_item = some it ∧
      bi = BillItem.snapshot it inp.work_order_item inp.delivered_quantity := by
  unfold mkBillItems at h
  obtain ⟨inp, hmem, hmap⟩ := List.mem_filterMap.mp h
  cases hL : lookup s.work_order_items inp.work_order_item with
  | none => rw [hL] at hmap; cases hmap
  | some it =>
    rw [hL] at hmap
    simp only [Option.map_some', Option.some_inj] at hmap
    exact ⟨inp, hmem, it, hL, hmap.symm⟩

theorem mkBillItems_cons (s : ErpState) (inp : BillItemInput) (l : List BillItemInput) :
    mkBillItems s (inp :: l) =
      (match lookup s.work_order_items inp.work_order_item with
        | none => mkBillItems s l
        | some it =>
          BillItem.snapshot it inp.work_order_item inp.delivered_quantity ::
            mkBillItems s l) := by
  unfold mkBillItems
  rw [List.filterMap_cons]
  cases lookup s.work_order_items inp.work_order_item <;> simp

theorem deliveredContribution_cons (k : Nat) (bi : BillItem) (bis : List BillItem) :
    deliveredContribution k (bi :: bis) =
      (if itemTouches k bi then bi.delivered_quantity else 0) +
        deliveredContribution k bis := by
  unfold deliveredContribution
  rw [List.filter_cons]
  by_cases hb : itemTouches k bi
  · simp [hb]
  · simp [hb]

theorem deliveredContribution_mkBillItems_zero (s : ErpState) (l : List BillItemInput)
    (k : Nat) (h : ∀ inp ∈ l, ¬ inp.work_order_item = k) :
    deliveredContribution k (mkBillItems s l) = 0 := by
  induction l with
  | nil => rfl
  | cons inp rest ih =>
    have hrest := ih (fun x hx => h x (List.mem_cons_of_mem inp hx))
    rw [mkBillItems_cons]
    cases hL : lookup s.work_order_items inp.work_order_item with
    | none => exact hrest
    | some it =>
      rw [deliveredContribution_cons, hrest]
      have ht : itemTouches k (BillItem.snapshot it inp.work_order_item
          inp.delivered_quantity) = false := by
        simp only [itemTouches, BillItem.snapshot, Bool.and_eq_false_iff]
        right
        simp
        exact fun hc => h inp (List.mem_cons_self inp rest) hc
      rw [ht]
      simp

end Erp

namespace Erp

theorem deliveredContribution_mkBillItems_le (s : ErpState) (l : List BillItemInput)
    (k : Nat) (it : WorkOrderItem)
    (hnodup : (l.map (fun inp => inp.work_order_item)).Nodup)
    (hnn : ∀ inp ∈ l, 0 ≤ inp.delivered_quantity)
    (hval : ∀ inp ∈ l, ∀ it0,
      lookup s.work_order_items inp.work_order_item = some it0 →
      ¬ it0.pending_quantity < inp.delivered_quantity)
    (hit : lookup s.work_order_items k = some it)
    (hpnn : 0 ≤ it.pending_quantity) :
    deliveredContribution k (mkBillItems s l) ≤ it.pending_quantity := by
  induction l with
  | nil =>
    show deliveredContribution k [] ≤ _
    unfold deliveredContribution
    simpa using hpnn
  | cons inp rest ih =>
    simp only [List.map_cons, List.nodup_cons] at hnodup
    have hnn_rest : ∀ x ∈ rest, 0 ≤ x.delivered_quantity :=
      fun x hx => hnn x (List.mem_cons_of_mem inp hx)
    have hval_rest : ∀ x ∈ rest, ∀ it0,
        lookup s.work_order_items x.work_order_item = some it0 →
        ¬ it0.pending_quantity < x.delivered_quantity :=
      fun x hx => hval x (List.mem_cons_of_mem inp hx)
    have hrec := ih hnodup.2 hnn_rest hval_rest
    rw [mkBillItems_cons]
    cases hL : lookup s.work_order_items inp.work_order_item with
    | none => exact hrec
    | some it0 =>
      rw [deliveredContribution_cons]
      by_cases hk : inp.work_order_item = k
      · have hit0 : it0 = it := by
          rw [hk] at hL
          rw [hL] at hit
          exact Option.some_inj.mp hit
        have hzero : deliveredContribution k (mkBillItems s rest) = 0 := by
          apply deliveredContribution_mkBillItems_zero
          intro x hx hxk
          apply hnodup.1
          rw [hk, ← hxk]
          exact List.mem_map.mpr ⟨x, hx, rfl⟩
        rw [hzero]
        have hb := hval inp (List.mem_cons_self inp rest) it0 hL
        rw [hit0] at hb
        by_cases ht : itemTouches k (BillItem.snapshot it0 inp.work_order_item
            inp.delivered_quantity) = true
        · rw [if_pos ht]
          show inp.delivered_quantity + 0 ≤ it.pending_quantity
          have := not_lt.mp hb
          linarith
        · rw [if_neg ht]
          simpa using hpnn
      · have ht : itemTouches k (BillItem.snapshot it0 inp.work_order_item
            inp.delivered_quantity) = false := by
          simp only [itemTouches, BillItem.snapshot, Bool.and_eq_false_iff]
          right
          simp
          exact fun hc => hk hc
        rw [if_neg (by rw [ht]; exact Bool.false_ne_true)]
        simpa using hrec

theorem bill_total_nonneg (s : ErpState) (req : BillCreateRequest) (wo : WorkOrder)
    (hnn : ∀ inp ∈ req.items, 0 ≤ inp.delivered_quantity)
    (hrate : ∀ p ∈ s.work_order_items, 0 ≤ (p.2).rate)
    (hpct : 0 ≤ wo.cgst_percentage ∧ 0 ≤ wo.sgst_percentage ∧ 0 ≤ wo.igst_percentage) :
    0 ≤ (Bill.calculate_totals wo
      (Bill.new req.work_order (mkBillItems s req.items))).total_amount := by
  have hsub : 0 ≤ ((mkBillItems s req.items).map (fun bi => bi.amount)).sum := by
    apply List.sum_nonneg
    intro x hx
    obtain ⟨bi, hbi, rfl⟩ := List.mem_map.mp hx
    obtain ⟨inp, hinp, it, hL, rfl⟩ := mem_mkBillItems s req.items bi hbi
    show 0 ≤ inp.delivered_quantity * it.rate
    exact mul_nonneg (hnn inp hinp)
      (hrate (inp.work_order_item, it) (lookup_mem s.work_order_items _ it hL))
  show 0 ≤ ((mkBillItems s req.items).map (fun bi => bi.amount)).sum +
    ((mkBillItems s req.items).map (fun bi => bi.amount)).sum * wo.cgst_percentage / 100 +
    ((mkBillItems s req.items).map (fun bi => bi.amount)).sum * wo.sgst_percentage / 100 +
    ((mkBillItems s req.items).map (fun bi => bi.amount)).sum * wo.igst_percentage / 100
  have hc : 0 ≤ ((mkBillItems s req.items).map (fun bi => bi.amount)).sum *
      wo.cgst_percentage / 100 :=
    div_nonneg (mul_nonneg hsub hpct.1) (by norm_num)
  have hs : 0 ≤ ((mkBillItems s req.items).map (fun bi => bi.amount)).sum *
      wo.sgst_percentage / 100 :=
    div_nonneg (mul_nonneg hsub hpct.2.1) (by norm_num)
  have hi : 0 ≤ ((mkBillItems s req.items).map (fun bi => bi.amount)).sum *
      wo.igst_percentage / 100 :=
    div_nonneg (mul_nonneg hsub hpct.2.2) (by norm_num)
  linarith

end Erp

namespace Erp

theorem update_status_pcts (items : List WorkOrderItem) (wo : WorkOrder) :
    (WorkOrder.update_status items wo).cgst_percentage = wo.cgst_percentage ∧
    (WorkOrder.update_status items wo).sgst_percentage = wo.sgst_percentage ∧
    (WorkOrder.update_status items wo).igst_percentage = wo.igst_percentage := by
  unfold WorkOrder.update_status WorkOrder.save
  split <;> exact ⟨rfl, rfl, rfl⟩

theorem coreInv_create (s : ErpState) (req : BillCreateRequest)
    (hinv : CoreInv s) (hpro : Op.Provisos (Op.create req)) :
    CoreInv (runExcept s (createBill req s)) := by
  cases hc : createBill req s with
  | error e => exact hinv
  | ok s1 =>
    show CoreInv s1
    obtain ⟨wo, hwo, hcomp, hemp, hval, hs1⟩ := createBill_ok_inv req s s1 hc
    subst hs1
    obtain ⟨⟨hndI, hndW⟩, hpend, ⟨ha1, ha2, ha3, ha4, ha5, ha6⟩, hg, hh, hi⟩ := hinv
    obtain ⟨hnn, hdist⟩ := hpro
    set B := Bill.calculate_totals wo (Bill.new req.work_order (mkBillItems s req.items))
      with hB
    have hwomem : (req.work_order, wo) ∈ s.work_orders :=
      lookup_mem s.work_orders req.work_order wo hwo
    have hBdq : ∀ bi ∈ B.items, 0 ≤ bi.delivered_quantity := by
      intro bi hbi
      obtain ⟨inp, hinp, it, hL, rfl⟩ := mem_mkBillItems s req.items bi hbi
      exact hnn inp hinp
    have hBadv : 0 ≤ B.advance_deducted := by
      show (0 : ℚ) ≤ min B.total_amount wo.advance_remaining
      exact le_min (bill_total_nonneg s req wo hnn ha5 (ha6 (req.work_order, wo) hwomem))
        (ha2 (req.work_order, wo) hwomem)
    have hBnotc : ¬ B.status = BillStatus.CANCELLED :=
      (by decide : ¬ BillStatus.GENERATED = BillStatus.CANCELLED)
    have hitems : (createApply req wo s).work_order_items =
        s.work_order_items.map (fun p => (p.1,
          if B.items.filter (itemTouches p.1) = [] then p.2
          else addDeliver (deliveredContribution p.1 B.items) p.2)) := by
      show (billItemsFold _ _ B.items (s.products, s.work_order_items)).2 = _
      rw [billItemsFold_snd_eq_map]
      congr 1
      funext p
      rw [foldl_addDeliver]
      rfl
    have hitemval : ∀ inp ∈ req.items, ∀ it0,
        lookup s.work_order_items inp.work_order_item = some it0 →
        ¬ it0.pending_quantity < inp.delivered_quantity := by
      intro inp hm it0 hl0 hlt
      exact validateItemList_ok_inv s req.items hval inp hm
        (Or.inr ⟨it0, hl0, Or.inl hlt⟩)
    have hwos : (createApply req wo s).work_orders =
        updateKey s.work_orders req.work_order
          (fun _ => WorkOrder.update_status
            (itemsOf (Bill.deduct_stock B (s.products, s.work_order_items)).2
              req.work_order)
            (Bill.update_work_order_advance B wo)) := rfl
    obtain ⟨hfd, hfa, hft⟩ := update_status_fields
      (itemsOf (Bill.deduct_stock B (s.products, s.work_order_items)).2 req.work_order)
      (Bill.update_work_order_advance B wo)
    have hfr := update_status_remaining
      (itemsOf (Bill.deduct_stock B (s.products, s.work_order_items)).2 req.work_order)
      (Bill.update_work_order_advance B wo) rfl
    obtain ⟨hp1, hp2, hp3⟩ := update_status_pcts
      (itemsOf (Bill.deduct_stock B (s.products, s.work_order_items)).2 req.work_order)
      (Bill.update_work_order_advance B wo)
    refine ⟨⟨?_, ?_⟩, ?_, ⟨?_, ?_, ?_, ?_, ?_, ?_⟩, ?_, ?_, ?_⟩
    · rw [hitems, List.map_map]
      exact hndI
    · rw [hwos, updateKey_keys]
      exact hndW
    · -- pending identity
      intro p hp
      rw [hitems] at hp
      obtain ⟨q, hq, rfl⟩ := List.mem_map.mp hp
      by_cases hfe : B.items.filter (itemTouches q.1) = []
      · simp only [if_pos hfe]
        exact hpend q hq
      · simp only [if_neg hfe]
        show (q.2).ordered_quantity - _ = (q.2).ordered_quantity - _
        rfl
    · -- remaining identity
      intro p hp
      rw [hwos, updateKey_eq_map] at hp
      obtain ⟨q, hq, rfl⟩ := List.mem_map.mp hp
      by_cases hqk : q.1 = req.work_order
      · simp only [if_pos hqk]
        show (WorkOrder.update_status _ _).advance_remaining = _
        rw [hfr, hfa, hfd]
      · simp only [if_neg hqk]
        exact ha1 q hq
    · -- remaining non-negative
      intro p hp
      rw [hwos, updateKey_eq_map] at hp
      obtain ⟨q, hq, rfl⟩ := List.mem_map.mp hp
      by_cases hqk : q.1 = req.work_order
      · simp only [if_pos hqk]
        show 0 ≤ (WorkOrder.update_status _ _).advance_remaining
        rw [hfr]
        show (0 : ℚ) ≤ (Bill.update_work_order_advance B wo).advance_amount -
          (Bill.update_work_order_advance B wo).advance_deducted
        show (0 : ℚ) ≤ wo.advance_amount - (wo.advance_deducted + B.advance_deducted)
        have hrem := ha1 (req.work_order, wo) hwomem
        have hminle : B.advance_deducted ≤ wo.advance_remaining := min_le_right _ _
        have := ha2 (req.work_order, wo) hwomem
        simp only at hrem
        linarith [hrem]
      · simp only [if_neg hqk]
        exact ha2 q hq
    · -- deducted equals sum over non-cancelled bills
      intro p hp
      rw [hwos, updateKey_eq_map] at hp
      obtain ⟨q, hq, rfl⟩ := List.mem_map.mp hp
      show _ = billsAdvSum (s.bills ++ [B]) _
      by_cases hqk : q.1 = req.work_order
      · simp only [if_pos hqk]
        rw [hqk]
        rw [billsAdvSum_append]
        rw [if_pos ⟨(rfl : B.work_order = req.work_order), hBnotc⟩]
        show (WorkOrder.update_status _ _).advance_deducted = _
        rw [hfd]
        show wo.advance_deducted + B.advance_deducted =
          billsAdvSum s.bills req.work_order + B.advance_deducted
        rw [(ha3 (req.work_order, wo) hwomem :
          wo.advance_deducted = billsAdvSum s.bills req.work_order)]
      · simp only [if_neg hqk]
        rw [billsAdvSum_append]
        rw [if_neg (fun hcon => hqk (hcon.1.symm))]
        rw [add_zero]
        exact ha3 q hq
    · -- every bill's advance deduction non-negative
      intro b hb
      rcases List.mem_append.mp hb with hb | hb
      · exact ha4 b hb
      · rw [List.mem_singleton.mp hb]
        exact hBadv
    · -- rates non-negative
      intro p hp
      rw [hitems] at hp
      obtain ⟨q, hq, rfl⟩ := List.mem_map.mp hp
      by_cases hfe : B.items.filter (itemTouches q.1) = []
      · simp only [if_pos hfe]
        exact ha5 q hq
      · simp only [if_neg hfe]
        exact ha5 q hq
    · -- tax percentages non-negative
      intro p hp
      rw [hwos, updateKey_eq_map] at hp
      obtain ⟨q, hq, rfl⟩ := List.mem_map.mp hp
      by_cases hqk : q.1 = req.work_order
      · simp only [if_pos hqk]
        refine ⟨?_, ?_, ?_⟩
        · show 0 ≤ (WorkOrder.update_status _ _).cgst_percentage
          rw [hp1]
          exact (ha6 (req.work_order, wo) hwomem).1
        · show 0 ≤ (WorkOrder.update_status _ _).sgst_percentage
          rw [hp2]
          exact (ha6 (req.work_order, wo) hwomem).2.1
        · show 0 ≤ (WorkOrder.update_status _ _).igst_percentage
          rw [hp3]
          exact (ha6 (req.work_order, wo) hwomem).2.2
      · simp only [if_neg hqk]
        exact ha6 q hq
    · -- delivered bounds
      intro p hp
      rw [hitems] at hp
      obtain ⟨q, hq, rfl⟩ := List.mem_map.mp hp
      by_cases hfe : B.items.filter (itemTouches q.1) = []
      · simp only [if_pos hfe]
        exact hg q hq
      · simp only [if_neg hfe]
        have hCnn : 0 ≤ deliveredContribution q.1 B.items :=
          deliveredContribution_nonneg q.1 B.items hBdq
        have hq2 : lookup s.work_order_items q.1 = some q.2 :=
          lookup_of_mem_nodup s.work_order_items q.1 q.2 hndI (by
            rw [show (q.1, q.2) = q from rfl]
            exact hq)
        have hpnn : 0 ≤ (q.2).pending_quantity := by
          have h1 := hpend q hq
          have h2 := hg q hq
          rw [h1]
          linarith [h2.1, h2.2]
        have hCle : deliveredContribution q.1 B.items ≤ (q.2).pending_quantity :=
          deliveredContribution_mkBillItems_le s req.items q.1 q.2 hdist hnn
            hitemval hq2 hpnn
        have h2 := hg q hq
        have h1 := hpend q hq
        constructor
        · show 0 ≤ (q.2).delivered_quantity + deliveredContribution q.1 B.items
          linarith [h2.1]
        · show (q.2).delivered_quantity + deliveredContribution q.1 B.items ≤
            (q.2).ordered_quantity
          rw [h1] at hCle
          linarith
    · -- delivered equals sum of bill contributions
      intro p hp
      rw [hitems] at hp
      obtain ⟨q, hq, rfl⟩ := List.mem_map.mp hp
      show _ = billsDeliveredSum (s.bills ++ [B]) _
      rw [billsDeliveredSum_append, if_pos hBnotc]
      by_cases hfe : B.items.filter (itemTouches q.1) = []
      · simp only [if_pos hfe]
        have hC0 : deliveredContribution q.1 B.items = 0 := by
          unfold deliveredContribution
          rw [hfe]
          rfl
        rw [hC0, add_zero]
        exact hh q hq
      · simp only [if_neg hfe]
        show (q.2).delivered_quantity + deliveredContribution q.1 B.items = _
        rw [hh q hq]
    · -- every bill item quantity non-negative
      intro b hb bi hbi
      rcases List.mem_append.mp hb with hb | hb
      · exact hi b hb bi hbi
      · rw [List.mem_singleton.mp hb] at hbi
        exact hBdq bi hbi

end Erp

namespace Erp

theorem coreInv_cancel (s : ErpState) (i : Nat) (hinv : CoreInv s) :
    CoreInv (runExcept s (cancelBill i s)) := by
  cases hc : cancelBill i s with
  | error e => exact hinv
  | ok s1 =>
    show CoreInv s1
    obtain ⟨bill, hget, hc1, hc2, hs1⟩ := cancelBill_ok_inv i s s1 hc
    subst hs1
    obtain ⟨⟨hndI, hndW⟩, hpend, ⟨ha1, ha2, ha3, ha4, ha5, ha6⟩, hg, hh, hi⟩ := hinv
    have hbmem : bill ∈ s.bills := List.get?_mem hget
    have hbdq : ∀ bi ∈ bill.items, 0 ≤ bi.delivered_quantity := hi bill hbmem
    have hbadv : 0 ≤ bill.advance_deducted := ha4 bill hbmem
    have hccan : ({ bill with status := BillStatus.CANCELLED } : Bill).status
        = BillStatus.CANCELLED := rfl
    have hitems : (cancelApply i bill s).work_order_items =
        s.work_order_items.map (fun p => (p.1,
          if bill.items.filter (itemTouches p.1) = [] then p.2
          else addDeliver (-(deliveredContribution p.1 bill.items)) p.2)) := by
      show (billItemsFold _ _ bill.items (s.products, s.work_order_items)).2 = _
      rw [billItemsFold_snd_eq_map]
      congr 1
      funext p
      rw [foldl_subDeliver]
      rfl
    have hwos : (cancelApply i bill s).work_orders =
        updateKey s.work_orders bill.work_order
          (fun _ => WorkOrder.update_status
            (itemsOf (Bill.restore_stock_items bill (s.products, s.work_order_items)).2
              bill.work_order)
            (WorkOrder.save
              { (lookup s.work_orders bill.work_order).getD WorkOrder.zero with
                advance_deducted := ((lookup s.work_orders
                  bill.work_order).getD WorkOrder.zero).advance_deducted -
                  bill.advance_deducted
                total_delivered_value := ((lookup s.work_orders
                  bill.work_order).getD WorkOrder.zero).total_delivered_value -
                  bill.total_amount })) := rfl
    obtain ⟨hfd, hfa, hft⟩ := update_status_fields
      (itemsOf (Bill.restore_stock_items bill (s.products, s.work_order_items)).2
        bill.work_order)
      (WorkOrder.save
        { (lookup s.work_orders bill.work_order).getD WorkOrder.zero with
          advance_deducted := ((lookup s.work_orders
            bill.work_order).getD WorkOrder.zero).advance_deducted -
            bill.advance_deducted
          total_delivered_value := ((lookup s.work_orders
            bill.work_order).getD WorkOrder.zero).total_delivered_value -
            bill.total_amount })
    have hfr := update_status_remaining
      (itemsOf (Bill.restore_stock_items bill (s.products, s.work_order_items)).2
        bill.work_order)
      (WorkOrder.save
        { (lookup s.work_orders bill.work_order).getD WorkOrder.zero with
          advance_deducted := ((lookup s.work_orders
            bill.work_order).getD WorkOrder.zero).advance_deducted -
            bill.advance_deducted
          total_delivered_value := ((lookup s.work_orders
            bill.work_order).getD WorkOrder.zero).total_delivered_value -
            bill.total_amount }) rfl
    obtain ⟨hp1, hp2, hp3⟩ := update_status_pcts
      (itemsOf (Bill.restore_stock_items bill (s.products, s.work_order_items)).2
        bill.work_order)
      (WorkOrder.save
        { (lookup s.work_orders bill.work_order).getD WorkOrder.zero with
          advance_deducted := ((lookup s.work_orders
            bill.work_order).getD WorkOrder.zero).advance_deducted -
            bill.advance_deducted
          total_delivered_value := ((lookup s.work_orders
            bill.work_order).getD WorkOrder.zero).total_delivered_value -
            bill.total_amount })
    refine ⟨⟨?_, ?_⟩, ?_, ⟨?_, ?_, ?_, ?_, ?_, ?_⟩, ?_, ?_, ?_⟩
    · rw [hitems, List.map_map]
      exact hndI
    · rw [hwos, updateKey_keys]
      exact hndW
    · -- pending identity
      intro p hp
      rw [hitems] at hp
      obtain ⟨q, hq, rfl⟩ := List.mem_map.mp hp
      by_cases hfe : bill.items.filter (itemTouches q.1) = []
      · simp only [if_pos hfe]
        exact hpend q hq
      · simp only [if_neg hfe]
        show (q.2).ordered_quantity - _ = (q.2).ordered_quantity - _
        rfl
    · -- remaining identity
      intro p hp
      rw [hwos, updateKey_eq_map] at hp
      obtain ⟨q, hq, rfl⟩ := List.mem_map.mp hp
      by_cases hqk : q.1 = bill.work_order
      · simp only [if_pos hqk]
        show (WorkOrder.update_status _ _).advance_remaining = _
        rw [hfr, hfa, hfd]
      · simp only [if_neg hqk]
        exact ha1 q hq
    · -- remaining non-negative
      intro p hp
      rw [hwos, updateKey_eq_map] at hp
      obtain ⟨q, hq, rfl⟩ := List.mem_map.mp hp
      by_cases hqk : q.1 = bill.work_order
      · simp only [if_pos hqk]
        have hlw : lookup s.work_orders bill.work_order = some q.2 :=
          hqk ▸ lookup_of_mem_nodup s.work_orders q.1 q.2 hndW (by
            rw [show (q.1, q.2) = q from rfl]
            exact hq)
        have hgd : (lookup s.work_orders bill.work_order).getD WorkOrder.zero = q.2 := by
          rw [hlw]
          rfl
        show 0 ≤ (WorkOrder.update_status _ _).advance_remaining
        rw [hfr, hgd]
        show (0 : ℚ) ≤ (q.2).advance_amount -
          ((q.2).advance_deducted - bill.advance_deducted)
        have h1 := ha1 q hq
        have h2 := ha2 q hq
        simp only at h1 h2
        linarith
      · simp only [if_neg hqk]
        exact ha2 q hq
    · -- deducted equals sum over non-cancelled bills
      intro p hp
      rw [hwos, updateKey_eq_map] at hp
      obtain ⟨q, hq, rfl⟩ := List.mem_map.mp hp
      by_cases hqk : q.1 = bill.work_order
      · simp only [if_pos hqk]
        have hlw : lookup s.work_orders bill.work_order = some q.2 :=
          hqk ▸ lookup_of_mem_nodup s.work_orders q.1 q.2 hndW (by
            rw [show (q.1, q.2) = q from rfl]
            exact hq)
        have hgd : (lookup s.work_orders bill.work_order).getD WorkOrder.zero = q.2 := by
          rw [hlw]
          rfl
        have ha3q : (q.2).advance_deducted = billsAdvSum s.bills bill.work_order := by
          have h := ha3 q hq
          rwa [hqk] at h
        show (WorkOrder.update_status _ _).advance_deducted =
          billsAdvSum (s.bills.set i { bill with status := BillStatus.CANCELLED }) q.1
        rw [hqk, billsAdvSum_set s.bills i bill _ bill.work_order hget,
          if_pos ⟨rfl, hc1⟩, if_neg (fun hcon => hcon.2 hccan), hfd, hgd]
        show (q.2).advance_deducted - bill.advance_deducted =
          billsAdvSum s.bills bill.work_order - bill.advance_deducted + 0
        rw [ha3q]
        ring
      · simp only [if_neg hqk]
        show _ = billsAdvSum (s.bills.set i { bill with status := BillStatus.CANCELLED }) q.1
        rw [billsAdvSum_set s.bills i bill _ q.1 hget,
          if_neg (fun hcon => hqk hcon.1.symm), if_neg (fun hcon => hcon.2 hccan),
          sub_zero, add_zero]
        exact ha3 q hq
    · -- every bill's advance deduction non-negative
      intro b hb
      rcases List.mem_or_eq_of_mem_set hb with hb | rfl
      · exact ha4 b hb
      · exact hbadv
    · -- rates non-negative
      intro p hp
      rw [hitems] at hp
      obtain ⟨q, hq, rfl⟩ := List.mem_map.mp hp
      by_cases hfe : bill.items.filter (itemTouches q.1) = []
      · simp only [if_pos hfe]
        exact ha5 q hq
      · simp only [if_neg hfe]
        exact ha5 q hq
    · -- tax percentages non-negative
      intro p hp
      rw [hwos, updateKey_eq_map] at hp
      obtain ⟨q, hq, rfl⟩ := List.mem_map.mp hp
      by_cases hqk : q.1 = bill.work_order
      · simp only [if_pos hqk]
        have hlw : lookup s.work_orders bill.work_order = some q.2 :=
          hqk ▸ lookup_of_mem_nodup s.work_orders q.1 q.2 hndW (by
            rw [show (q.1, q.2) = q from rfl]
            exact hq)
        have hgd : (lookup s.work_orders bill.work_order).getD WorkOrder.zero = q.2 := by
          rw [hlw]
          rfl
        refine ⟨?_, ?_, ?_⟩
        · show 0 ≤ (WorkOrder.update_status _ _).cgst_percentage
          rw [hp1, hgd]
          exact (ha6 q hq).1
        · show 0 ≤ (WorkOrder.update_status _ _).sgst_percentage
          rw [hp2, hgd]
          exact (ha6 q hq).2.1
        · show 0 ≤ (WorkOrder.update_status _ _).igst_percentage
          rw [hp3, hgd]
          exact (ha6 q hq).2.2
      · simp only [if_neg hqk]
        exact ha6 q hq
    · -- delivered bounds
      intro p hp
      rw [hitems] at hp
      obtain ⟨q, hq, rfl⟩ := List.mem_map.mp hp
      by_cases hfe : bill.items.filter (itemTouches q.1) = []
      · simp only [if_pos hfe]
        exact hg q hq
      · simp only [if_neg hfe]
        have hCnn : 0 ≤ deliveredContribution q.1 bill.items :=
          deliveredContribution_nonneg q.1 bill.items hbdq
        have hCle : deliveredContribution q.1 bill.items ≤ billsDeliveredSum s.bills q.1 :=
          le_billsDeliveredSum s.bills i bill q.1 hget hc1 hi
        have hdel := hh q hq
        have hbnd := hg q hq
        constructor
        · show 0 ≤ (q.2).delivered_quantity + -(deliveredContribution q.1 bill.items)
          rw [hdel]
          linarith
        · show (q.2).delivered_quantity + -(deliveredContribution q.1 bill.items) ≤
            (q.2).ordered_quantity
          linarith [hbnd.2]
    · -- delivered equals sum of bill contributions
      intro p hp
      rw [hitems] at hp
      obtain ⟨q, hq, rfl⟩ := List.mem_map.mp hp
      show _ = billsDeliveredSum (s.bills.set i { bill with status := BillStatus.CANCELLED }) _
      rw [billsDeliveredSum_set s.bills i bill _ q.1 hget, if_pos hc1,
        if_neg (show ¬ ¬ ({ bill with status := BillStatus.CANCELLED } : Bill).status
          = BillStatus.CANCELLED from fun hcon => hcon hccan)]
      by_cases hfe : bill.items.filter (itemTouches q.1) = []
      · simp only [if_pos hfe]
        have hC0 : deliveredContribution q.1 bill.items = 0 := by
          unfold deliveredContribution
          rw [hfe]
          rfl
        rw [hC0, sub_zero, add_zero]
        exact hh q hq
      · simp only [if_neg hfe]
        show (q.2).delivered_quantity + -(deliveredContribution q.1 bill.items) =
          billsDeliveredSum s.bills q.1 - deliveredContribution q.1 bill.items + 0
        rw [hh q hq]
        ring
    · -- every bill item quantity non-negative
      intro b hb bi hbi
      rcases List.mem_or_eq_of_mem_set hb with hb | rfl
      · exact hi b hb bi hbi
      · exact hbdq bi hbi

end Erp

namespace Erp

theorem apply_payment_status (bill : Bill) (a : Money) (d : Nat) (m : PaymentMode) :
    (apply_payment bill a d m).status = BillStatus.PAID ∨
    (apply_payment bill a d m).status = bill.status := by
  by_cases hb : (if bill.net_payable - (bill.amount_paid + a) < 0 then (0 : ℚ)
      else bill.net_payable - (bill.amount_paid + a)) = 0
  · left
    show (if (if bill.net_payable - (bill.amount_paid + a) < 0 then (0 : ℚ)
      else bill.net_payable - (bill.amount_paid + a)) = 0 then BillStatus.PAID
      else bill.status) = BillStatus.PAID
    rw [if_pos hb]
  · right
    show (if (if bill.net_payable - (bill.amount_paid + a) < 0 then (0 : ℚ)
      else bill.net_payable - (bill.amount_paid + a)) = 0 then BillStatus.PAID
      else bill.status) = bill.status
    rw [if_neg hb]

theorem coreInv_pay (s : ErpState) (today i : Nat) (req : MarkPaidRequest)
    (hinv : CoreInv s) : CoreInv (applyOp s (Op.pay today i req)) := by
  have happ : applyOp s (Op.pay today i req) =
      match s.bills.get? i with
      | none => s
      | some b =>
        match mark_paid today req b with
        | Except.error _ => s
        | Except.ok b2 => { s with bills := s.bills.set i b2 } := rfl
  rw [happ]
  cases hb : s.bills.get? i with
  | none => exact hinv
  | some b =>
    show CoreInv (match mark_paid today req b with
      | Except.error _ => s
      | Except.ok b2 => { s with bills := s.bills.set i b2 })
    cases hm : mark_paid today req b with
    | error e => exact hinv
    | ok b2 =>
      obtain ⟨hnc, hnp, hrd, a, hamt, hapos, hle, pd, mode, hmode, hd1, hd2, hb2⟩ :=
        mark_paid_ok_inv today req b b2 hm
      subst hb2
      obtain ⟨⟨hndI, hndW⟩, hpend, ⟨ha1, ha2, ha3, ha4, ha5, ha6⟩, hg, hh, hi⟩ := hinv
      have hbmem : b ∈ s.bills := List.get?_mem hb
      have hb2nc : ¬ (apply_payment b a pd mode).status = BillStatus.CANCELLED := by
        rcases apply_payment_status b a pd mode with h | h
        · rw [h]
          decide
        · rw [h]
          exact hnc
      refine ⟨⟨hndI, hndW⟩, hpend, ⟨ha1, ha2, ?_, ?_, ha5, ha6⟩, hg, ?_, ?_⟩
      · -- deducted equals sum over non-cancelled bills
        intro p hp
        show _ = billsAdvSum (s.bills.set i (apply_payment b a pd mode)) _
        rw [billsAdvSum_set s.bills i b _ p.1 hb]
        by_cases hw : b.work_order = p.1
        · rw [if_pos ⟨hw, hnc⟩,
            if_pos (⟨hw, hb2nc⟩ :
              (apply_payment b a pd mode).work_order = p.1 ∧
              ¬ (apply_payment b a pd mode).status = BillStatus.CANCELLED)]
          show p.2.advance_deducted =
            billsAdvSum s.bills p.1 - b.advance_deducted + b.advance_deducted
          rw [ha3 p hp]
          ring
        · rw [if_neg (fun hcon => hw hcon.1), if_neg (fun hcon => hw hcon.1),
            sub_zero, add_zero]
          exact ha3 p hp
      · -- every bill's advance deduction non-negative
        intro x hx
        rcases List.mem_or_eq_of_mem_set hx with hx | rfl
        · exact ha4 x hx
        · exact ha4 b hbmem
      · -- delivered equals sum of bill contributions
        intro p hp
        show _ = billsDeliveredSum (s.bills.set i (apply_payment b a pd mode)) _
        rw [billsDeliveredSum_set s.bills i b _ p.1 hb, if_pos hnc, if_pos hb2nc]
        show p.2.delivered_quantity =
          billsDeliveredSum s.bills p.1 - deliveredContribution p.1 b.items +
            deliveredContribution p.1 b.items
        rw [hh p hp]
        ring
      · -- every bill item quantity non-negative
        intro x hx bi hbi
        rcases List.mem_or_eq_of_mem_set hx with hx | rfl
        · exact hi x hx bi hbi
        · exact hi b hbmem bi hbi

theorem coreInv_save_item (s : ErpState) (itemId : Nat) (hinv : CoreInv s) :
    CoreInv (applyOp s (Op.save_item itemId)) := by
  obtain ⟨⟨hndI, hndW⟩, hpend, ⟨ha1, ha2, ha3, ha4, ha5, ha6⟩, hg, hh, hi⟩ := hinv
  refine ⟨⟨?_, hndW⟩, ?_, ⟨ha1, ha2, ha3, ha4, ?_, ha6⟩, ?_, ?_, hi⟩
  · show ((updateKey s.work_order_items itemId WorkOrderItem.save).map Prod.fst).Nodup
    rw [updateKey_keys]
    exact hndI
  · -- pending identity
    intro p hp
    have hp2 : p ∈ updateKey s.work_order_items itemId WorkOrderItem.save := hp
    rw [updateKey_eq_map] at hp2
    obtain ⟨q, hq, rfl⟩ := List.mem_map.mp hp2
    by_cases hqk : q.1 = itemId
    · simp only [if_pos hqk]
      rfl
    · simp only [if_neg hqk]
      exact hpend q hq
  · -- rates non-negative
    intro p hp
    have hp2 : p ∈ updateKey s.work_order_items itemId WorkOrderItem.save := hp
    rw [updateKey_eq_map] at hp2
    obtain ⟨q, hq, rfl⟩ := List.mem_map.mp hp2
    by_cases hqk : q.1 = itemId
    · simp only [if_pos hqk]
      exact ha5 q hq
    · simp only [if_neg hqk]
      exact ha5 q hq
  · -- delivered bounds
    intro p hp
    have hp2 : p ∈ updateKey s.work_order_items itemId WorkOrderItem.save := hp
    rw [updateKey_eq_map] at hp2
    obtain ⟨q, hq, rfl⟩ := List.mem_map.mp hp2
    by_cases hqk : q.1 = itemId
    · simp only [if_pos hqk]
      exact hg q hq
    · simp only [if_neg hqk]
      exact hg q hq
  · -- delivered equals sum of bill contributions
    intro p hp
    have hp2 : p ∈ updateKey s.work_order_items itemId WorkOrderItem.save := hp
    rw [updateKey_eq_map] at hp2
    obtain ⟨q, hq, rfl⟩ := List.mem_map.mp hp2
    by_cases hqk : q.1 = itemId
    · simp only [if_pos hqk]
      exact hh q hq
    · simp only [if_neg hqk]
      exact hh q hq

theorem coreInv_save_work_order (s : ErpState) (woId : Nat) (hinv : CoreInv s) :
    CoreInv (applyOp s (Op.save_work_order woId)) := by
  obtain ⟨⟨hndI, hndW⟩, hpend, ⟨ha1, ha2, ha3, ha4, ha5, ha6⟩, hg, hh, hi⟩ := hinv
  refine ⟨⟨hndI, ?_⟩, hpend, ⟨?_, ?_, ?_, ha4, ha5, ?_⟩, hg, hh, hi⟩
  · show ((updateKey s.work_orders woId WorkOrder.save).map Prod.fst).Nodup
    rw [updateKey_keys]
    exact hndW
  · -- remaining identity
    intro p hp
    have hp2 : p ∈ updateKey s.work_orders woId WorkOrder.save := hp
    rw [updateKey_eq_map] at hp2
    obtain ⟨q, hq, rfl⟩ := List.mem_map.mp hp2
    by_cases hqk : q.1 = woId
    · simp only [if_pos hqk]
      rfl
    · simp only [if_neg hqk]
      exact ha1 q hq
  · -- remaining non-negative
    intro p hp
    have hp2 : p ∈ updateKey s.work_orders woId WorkOrder.save := hp
    rw [updateKey_eq_map] at hp2
    obtain ⟨q, hq, rfl⟩ := List.mem_map.mp hp2
    by_cases hqk : q.1 = woId
    · simp only [if_pos hqk]
      show (0 : ℚ) ≤ (q.2).advance_amount - (q.2).advance_deducted
      have h1 := ha1 q hq
      have h2 := ha2 q hq
      simp only at h1 h2
      linarith
    · simp only [if_neg hqk]
      exact ha2 q hq
  · -- deducted equals sum over non-cancelled bills
    intro p hp
    have hp2 : p ∈ updateKey s.work_orders woId WorkOrder.save := hp
    rw [updateKey_eq_map] at hp2
    obtain ⟨q, hq, rfl⟩ := List.mem_map.mp hp2
    by_cases hqk : q.1 = woId
    · simp only [if_pos hqk]
      exact ha3 q hq
    · simp only [if_neg hqk]
      exact ha3 q hq
  · -- tax percentages non-negative
    intro p hp
    have hp2 : p ∈ updateKey s.work_orders woId WorkOrder.save := hp
    rw [updateKey_eq_map] at hp2
    obtain ⟨q, hq, rfl⟩ := List.mem_map.mp hp2
    by_cases hqk : q.1 = woId
    · simp only [if_pos hqk]
      exact ha6 q hq
    · simp only [if_neg hqk]
      exact ha6 q hq

theorem coreInv_step (s : ErpState) (op : Op) (hinv : CoreInv s)
    (hpro : Op.Provisos op) : CoreInv (applyOp s op) := by
  cases op with
  | create req => exact coreInv_create s req hinv hpro
  | cancel i => exact coreInv_cancel s i hinv
  | pay today i req => exact coreInv_pay s today i req hinv
  | save_item itemId => exact coreInv_save_item s itemId hinv
  | save_work_order woId => exact coreInv_save_work_order s woId hinv

theorem fresh_coreInv (s : ErpState) (h : FreshState s) : CoreInv s := by
  obtain ⟨hb, hitems, hwos, hwk⟩ := h
  refine ⟨hwk, ?_, ⟨?_, ?_, ?_, ?_, ?_, ?_⟩, ?_, ?_, ?_⟩
  · intro p hp
    have h1 := hitems p hp
    rw [h1.2.1, h1.1]
    ring
  · intro p hp
    have h2 := hwos p hp
    rw [h2.2.1, h2.1]
    ring
  · intro p hp
    have h2 := hwos p hp
    rw [h2.2.1]
    exact h2.2.2.1
  · intro p hp
    have h2 := hwos p hp
    rw [hb, h2.1]
    rfl
  · intro b hbm
    rw [hb] at hbm
    exact absurd hbm (List.not_mem_nil b)
  · intro p hp
    exact (hitems p hp).2.2.2
  · intro p hp
    exact (hwos p hp).2.2.2
  · intro p hp
    have h1 := hitems p hp
    rw [h1.1]
    exact ⟨le_refl 0, h1.2.2.1⟩
  · intro p hp
    have h1 := hitems p hp
    rw [hb, h1.1]
    rfl
  · intro b hbm
    rw [hb] at hbm
    exact absurd hbm (List.not_mem_nil b)

theorem coreInv_runOps (ops : List Op) :
    ∀ (s : ErpState), CoreInv s → (∀ op ∈ ops, Op.Provisos op) →
      CoreInv (runOps s ops) := by
  induction ops with
  | nil =>
    intro s hinv _
    exact hinv
  | cons op rest ih =>
    intro s hinv hpro
    show CoreInv (runOps (applyOp s op) rest)
    exact ih (applyOp s op)
      (coreInv_step s op hinv (hpro op (List.mem_cons_self op rest)))
      (fun o ho => hpro o (List.mem_cons_of_mem op ho))

end Erp

namespace Erp

/-- C6, counterexample: the claimed invariant `0 ≤ delivered_quantity ≤
ordered_quantity` is not preserved by bill creation.  (1) A request with a
negative `delivered_quantity` passes every serializer check (the pending
and stock bounds are upper bounds only) and leaves
`delivered_quantity = -5 < 0` on the work-order item.  (2) A request
listing the same work-order item twice passes validation (each entry is
checked against the unmutated store) and `deduct_stock` applies both,
leaving `delivered_quantity = 120 > 100 = ordered_quantity`. -/
theorem c6_counterexample :
    (∃ s1 it, createBill reqN stA = Except.ok s1 ∧
      lookup s1.work_order_items 10 = some it ∧ it.delivered_quantity < 0) ∧
    (∃ s1 it, createBill reqD stA = Except.ok s1 ∧
      lookup s1.work_order_items 10 = some it ∧
      it.ordered_quantity < it.delivered_quantity) := by
  have h1 : ¬ (WOStatus.ACTIVE = WOStatus.COMPLETED) := by decide
  constructor
  · refine ⟨createApply reqN woActive stA, itN2, ?_, ?_, ?_⟩
    · norm_num [createBill, validate_work_order, validate_items, validateItemList,
        stA, reqN, woActive, itemA, lookup, stockOf, h1]
    · norm_num [createApply, mkBillItems, Bill.new, Bill.calculate_totals,
        BillItem.snapshot, Bill.deduct_stock, billItemsFold, updateKey,
        WorkOrderItem.save, lookup, stA, reqN, itemA, woActive, itN2,
        List.filterMap_cons, List.filterMap_nil]
    · norm_num [itN2]
  · refine ⟨createApply reqD woActive stA, itD2, ?_, ?_, ?_⟩
    · have hne : ¬ (({ work_order_item := 10, delivered_quantity := 60 } : BillItemInput) ::
          [{ work_order_item := 10, delivered_quantity := 60 }] = []) :=
        List.cons_ne_nil _ _
      norm_num [createBill, validate_work_order, validate_items, validateItemList,
        stA, reqD, woActive, itemA, lookup, stockOf, h1, hne]
    · norm_num [createApply, mkBillItems, Bill.new, Bill.calculate_totals,
        BillItem.snapshot, Bill.deduct_stock, billItemsFold, updateKey,
        WorkOrderItem.save, lookup, stA, reqD, itemA, woActive, itD2,
        List.filterMap_cons, List.filterMap_nil]
    · norm_num [itD2]

end Erp

namespace Erp

/-- C6 (amended): under the proviso the serializer omits — every
bill-creation request carries non-negative delivered quantities and
references each work-order item at most once — every sequence of core
operations (bill creation, bill cancellation, payment recording, item and
work-order saves) run from a fresh store keeps, for every work-order item,
`delivered_quantity + pending_quantity = ordered_quantity` and
`0 ≤ delivered_quantity ≤ ordered_quantity`. -/
theorem c6_item_invariants_amended (s0 : ErpState) (ops : List Op)
    (h0 : FreshState s0) (hpro : ∀ op ∈ ops, Op.Provisos op) :
    ∀ p ∈ (runOps s0 ops).work_order_items,
      (p.2).delivered_quantity + (p.2).pending_quantity = (p.2).ordered_quantity ∧
      0 ≤ (p.2).delivered_quantity ∧
      (p.2).delivered_quantity ≤ (p.2).ordered_quantity := by
  obtain ⟨hwk, hpend, hadv, hg, hh, hi⟩ :=
    coreInv_runOps ops s0 (fresh_coreInv s0 h0) hpro
  intro p hp
  have h1 := hpend p hp
  have h2 := hg p hp
  refine ⟨?_, h2.1, h2.2⟩
  rw [h1]
  ring

/-- Witness: scenario A's fresh store followed by its 40-unit bill satisfies
the hypotheses and hence the item invariants. -/
theorem c6_item_invariants_amended_witness :
    FreshState stA ∧ (∀ op ∈ [Op.create reqA], Op.Provisos op) ∧
    ∀ p ∈ (runOps stA [Op.create reqA]).work_order_items,
      (p.2).delivered_quantity + (p.2).pending_quantity = (p.2).ordered_quantity ∧
      0 ≤ (p.2).delivered_quantity ∧
      (p.2).delivered_quantity ≤ (p.2).ordered_quantity := by
  have hfresh : FreshState stA := by
    refine ⟨rfl, ?_, ?_, by decide, by decide⟩
    · intro p hp
      rw [List.mem_singleton.mp hp]
      norm_num [itemA]
    · intro p hp
      rw [List.mem_singleton.mp hp]
      norm_num [woActive]
  have hpro : ∀ op ∈ [Op.create reqA], Op.Provisos op := by
    intro op hop
    rw [List.mem_singleton.mp hop]
    refine ⟨?_, by decide⟩
    intro inp hinp
    rw [List.mem_singleton.mp hinp]
    norm_num [reqA]
  exact ⟨hfresh, hpro, c6_item_invariants_amended stA [Op.create reqA] hfresh hpro⟩

end Erp

namespace Erp

/-- C7, counterexample: `advance_remaining` is not always non-negative.
Because bill creation rejects neither negative quantities nor negative
totals, a bill with total -100 against a work order with no advance at all
sets its `advance_deducted` to `min(-100, 0) = -100`, inflating
`advance_remaining` to +100; a second, honest bill then consumes that
phantom advance; cancelling the first bill adds its -100 back and leaves
`advance_remaining = -100 < 0`. -/
theorem c7_counterexample :
    ∃ wo,
      lookup (runOps stE [Op.create reqE1, Op.create reqE2,
        Op.cancel 0]).work_orders 9 = some wo ∧
      wo.advance_remaining < 0 := by
  have hACT : ¬ (WOStatus.ACTIVE = WOStatus.COMPLETED) := by decide
  have hGC : ¬ (BillStatus.GENERATED = BillStatus.CANCELLED) := by decide
  have hGP : ¬ (BillStatus.GENERATED = BillStatus.PAID) := by decide
  have h1 : createBill reqE1 stE = Except.ok sE1 := by
    norm_num [createBill, validate_work_order, validate_items, validateItemList,
      createApply, mkBillItems, Bill.new, Bill.calculate_totals, BillItem.snapshot,
      Bill.update_work_order_advance, Bill.deduct_stock, billItemsFold, updateKey,
      WorkOrderItem.save, WorkOrder.save, WorkOrder.update_status, itemsOf,
      lookup, stockOf, List.filterMap_cons, List.filterMap_nil, hACT,
      stE, itE20, itE21, woE, reqE1, sE1, itE20a, woE1, billE0, biE0]
  have h2 : createBill reqE2 sE1 = Except.ok sE2 := by
    norm_num [createBill, validate_work_order, validate_items, validateItemList,
      createApply, mkBillItems, Bill.new, Bill.calculate_totals, BillItem.snapshot,
      Bill.update_work_order_advance, Bill.deduct_stock, billItemsFold, updateKey,
      WorkOrderItem.save, WorkOrder.save, WorkOrder.update_status, itemsOf,
      lookup, stockOf, List.filterMap_cons, List.filterMap_nil, hACT,
      sE1, itE20a, itE21, woE1, reqE2, sE2, itE21a, woE2, billE0, biE0,
      billE1, biE1]
  have h3 : cancelBill 0 sE2 = Except.ok sE3 := by
    norm_num [cancelBill, cancelApply, Bill.restore_stock_items, billItemsFold,
      updateKey, WorkOrderItem.save, WorkOrder.save, WorkOrder.update_status,
      WorkOrder.zero, itemsOf, lookup, hGC, hGP,
      sE2, itE20a, itE21a, woE2, billE0, biE0, billE1, biE1, sE3, itE20,
      itE21, woE3]
  have e1 : applyOp stE (Op.create reqE1) = sE1 := by
    show runExcept stE (createBill reqE1 stE) = sE1
    rw [h1]
    rfl
  have e2 : applyOp sE1 (Op.create reqE2) = sE2 := by
    show runExcept sE1 (createBill reqE2 sE1) = sE2
    rw [h2]
    rfl
  have e3 : applyOp sE2 (Op.cancel 0) = sE3 := by
    show runExcept sE2 (cancelBill 0 sE2) = sE3
    rw [h3]
    rfl
  have hrun : runOps stE [Op.create reqE1, Op.create reqE2, Op.cancel 0] = sE3 := by
    show applyOp (applyOp (applyOp stE (Op.create reqE1)) (Op.create reqE2))
      (Op.cancel 0) = sE3
    rw [e1, e2, e3]
  rw [hrun]
  refine ⟨woE3, by norm_num [sE3, lookup], by norm_num [woE3]⟩

end Erp

namespace Erp

/-- C7 (amended): under the proviso the serializer omits (non-negative
requested quantities, no duplicate item references per request), after every
sequence of core operations run from a fresh store: every work order
satisfies `advance_remaining = advance_amount - advance_deducted`,
`advance_remaining ≥ 0`, and `advance_deducted` equals the sum of
`advance_deducted` over its non-CANCELLED bills; moreover any successful
bill creation against the reached store appends a bill whose
`advance_deducted` is `min(total_amount, advance_remaining)` of its work
order and whose `net_payable` is `total_amount - advance_deducted`. -/
theorem c7_advance_invariants_amended (s0 : ErpState) (ops : List Op)
    (h0 : FreshState s0) (hpro : ∀ op ∈ ops, Op.Provisos op) :
    (∀ p ∈ (runOps s0 ops).work_orders,
      (p.2).advance_remaining = (p.2).advance_amount - (p.2).advance_deducted ∧
      0 ≤ (p.2).advance_remaining ∧
      (p.2).advance_deducted = billsAdvSum (runOps s0 ops).bills p.1) ∧
    (∀ req wo s1,
      lookup (runOps s0 ops).work_orders req.work_order = some wo →
      createBill req (runOps s0 ops) = Except.ok s1 →
      ∃ b, s1.bills.get? (runOps s0 ops).bills.length = some b ∧
        b.advance_deducted = min b.total_amount wo.advance_remaining ∧
        b.net_payable = b.total_amount - b.advance_deducted) := by
  obtain ⟨⟨hndI, hndW⟩, hpend, ⟨ha1, ha2, ha3, ha4, ha5, ha6⟩, hg, hh, hi⟩ :=
    coreInv_runOps ops s0 (fresh_coreInv s0 h0) hpro
  refine ⟨?_, ?_⟩
  · intro p hp
    exact ⟨ha1 p hp, ha2 p hp, ha3 p hp⟩
  · intro req wo s1 hlw hc
    obtain ⟨wo2, hlw2, hcomp, hemp, hval, hs1⟩ :=
      createBill_ok_inv req (runOps s0 ops) s1 hc
    rw [hlw] at hlw2
    cases hlw2
    subst hs1
    refine ⟨Bill.calculate_totals wo
      (Bill.new req.work_order (mkBillItems (runOps s0 ops) req.items)), ?_, rfl, rfl⟩
    show ((runOps s0 ops).bills ++
      [Bill.calculate_totals wo
        (Bill.new req.work_order (mkBillItems (runOps s0 ops) req.items))]).get?
      (runOps s0 ops).bills.length = _
    exact List.get?_concat_length _ _

/-- Witness: scenario E's fresh store with no operations satisfies the
hypotheses, so the advance invariants hold there. -/
theorem c7_advance_invariants_amended_witness :
    FreshState stE ∧ (∀ op ∈ ([] : List Op), Op.Provisos op) ∧
    ((∀ p ∈ (runOps stE []).work_orders,
      (p.2).advance_remaining = (p.2).advance_amount - (p.2).advance_deducted ∧
      0 ≤ (p.2).advance_remaining ∧
      (p.2).advance_deducted = billsAdvSum (runOps stE []).bills p.1) ∧
    (∀ req wo s1,
      lookup (runOps stE []).work_orders req.work_order = some wo →
      createBill req (runOps stE []) = Except.ok s1 →
      ∃ b, s1.bills.get? (runOps stE []).bills.length = some b ∧
        b.advance_deducted = min b.total_amount wo.advance_remaining ∧
        b.net_payable = b.total_amount - b.advance_deducted)) := by
  have hfresh : FreshState stE := by
    refine ⟨rfl, ?_, ?_, by decide, by decide⟩
    · intro p hp
      rcases List.mem_cons.mp hp with rfl | hp
      · norm_num [itE20]
      · rw [List.mem_singleton.mp hp]
        norm_num [itE21]
    · intro p hp
      rw [List.mem_singleton.mp hp]
      norm_num [woE]
  have hpro : ∀ op ∈ ([] : List Op), Op.Provisos op := by
    intro op hop
    exact absurd hop (List.not_mem_nil op)
  exact ⟨hfresh, hpro, c7_advance_invariants_amended stE [] hfresh hpro⟩

end Erp
